import Mathlib

/-!
# Verification of the Flying-LoRa mesh-messaging core

Shallow embedding of the LoRa link-protocol engine (`src/lora_protocol.py`)
and the mesh routing engine (`src/mesh_network.py`), with theorems settling
the frozen claims about fragmentation/reassembly, CRC handling, priority
scheduling, retransmission, and routing-table maintenance.

Conventions:
* Python `str` message payloads are modelled by their UTF-8 byte encodings
  (`List Nat`, one entry per byte); `str.encode`/`bytes.decode` round-trip
  is the identity on such encodings, so the byte list is the payload.
* Python `float` timestamps and SNR values are modelled as `ℚ`; no claim
  depends on floating-point rounding.
* Python `dict` objects are modelled as association lists with
  insert-or-replace update (`dictInsert`), preserving the dict's
  first-insertion key order and key uniqueness.
-/

namespace FlyingLora

/-- `MessagePriority` from `src/lora_protocol.py` (HIGH=1, MEDIUM=2, LOW=3). -/
inductive Priority where
  | HIGH
  | MEDIUM
  | LOW
deriving DecidableEq, Repr

/-- `MessagePriority.value` — the integer enum value. -/
def Priority.value : Priority → Nat
  | .HIGH => 1
  | .MEDIUM => 2
  | .LOW => 3

/-- `LoRaPacket` dataclass (`src/lora_protocol.py` lines 19–29). -/
structure Packet where
  message_id : String
  fragment_id : Nat
  total_fragments : Nat
  priority : Priority
  payload : List Nat
  crc : Nat
  rssi : Int
  snr : ℚ
  timestamp : ℚ
deriving DecidableEq, Repr

/-- `LoRaProtocolHandler.MAX_PACKET_SIZE`. -/
def MAX_PACKET_SIZE : Nat := 230

/-- `LoRaProtocolHandler.HEADER_SIZE`. -/
def HEADER_SIZE : Nat := 20

/-- Fragment payload budget: `MAX_PACKET_SIZE - HEADER_SIZE` (= 210). -/
def PAYLOAD_SIZE : Nat := MAX_PACKET_SIZE - HEADER_SIZE

/-- `LoRaProtocolHandler.ACK_TIMEOUT` (seconds). -/
def ACK_TIMEOUT : ℚ := 2

/-- One round of the reflected CRC-32 shift (polynomial 0xEDB88320). -/
def crc32_shift (c : Nat) : Nat :=
  if c % 2 = 1 then Nat.xor (c / 2) 0xEDB88320 else c / 2

/-- Fold one byte into the CRC-32 accumulator (8 shift rounds). -/
def crc32_byte (c b : Nat) : Nat :=
  crc32_shift (crc32_shift (crc32_shift (crc32_shift
    (crc32_shift (crc32_shift (crc32_shift (crc32_shift (Nat.xor c b))))))))

/-- `zlib.crc32` — IEEE CRC-32 of a byte sequence (init `0xFFFFFFFF`,
reflected polynomial `0xEDB88320`, final xor `0xFFFFFFFF`). -/
def crc32 (data : List Nat) : Nat :=
  Nat.xor (data.foldl crc32_byte 0xFFFFFFFF) 0xFFFFFFFF

section Dict

variable {α β : Type} [DecidableEq α]

/-- Python dict lookup: first (unique) binding of the key. -/
def dictFind : List (α × β) → α → Option β
  | [], _ => none
  | (k', v) :: t, k => if k' = k then some v else dictFind t k

/-- Python dict assignment `d[k] = v`: replace the (unique) binding of the
key in place if present, else append a new binding at the end (dicts keep
first-insertion key order). -/
def dictInsert : List (α × β) → α → β → List (α × β)
  | [], k, v => [(k, v)]
  | (k', v') :: t, k, v =>
    if k' = k then (k, v) :: t else (k', v') :: dictInsert t k v

/-- Python `del d[k]`: remove the binding of the key. -/
def dictErase (l : List (α × β)) (k : α) : List (α × β) :=
  l.filter (fun p => p.1 ≠ k)

end Dict

/-- `LoRaProtocolHandler._fragment_message` (lines 141–170): slice the
encoded message into `ceil(len/210)` contiguous chunks of ≤ 210 bytes;
fragment `i` carries bytes `[i*210, (i+1)*210)`, its own CRC-32, fixed
MEDIUM packet priority, and the shared `message_id` and total. -/
def fragment_message (message_id : String) (data : List Nat) (ts : ℚ) :
    List Packet :=
  let total := (data.length + PAYLOAD_SIZE - 1) / PAYLOAD_SIZE
  (List.range total).map (fun i =>
    { message_id := message_id
      fragment_id := i
      total_fragments := total
      priority := Priority.MEDIUM
      payload := (data.drop (i * PAYLOAD_SIZE)).take PAYLOAD_SIZE
      crc := crc32 ((data.drop (i * PAYLOAD_SIZE)).take PAYLOAD_SIZE)
      rssi := 0
      snr := 0
      timestamp := ts })

/-- Receiver-side state of `LoRaProtocolHandler`: pending-ACK trackers,
reassembly buffers (`received_fragments`), the upward delivery queue
(`receive_queue`), the bounded RSSI/SNR sample buffers and the
`packet_loss` counter from `signal_stats`. -/
structure RxState where
  pending_acks : List (String × ℚ)
  received_fragments : List (String × List (Nat × Packet))
  receive_queue : List (List Nat)
  rssiBuf : List Int
  snrBuf : List ℚ
  packet_loss : Nat
deriving DecidableEq, Repr

/-- A freshly constructed handler: all buffers empty, counters zero. -/
def freshRx : RxState :=
  { pending_acks := []
    received_fragments := []
    receive_queue := []
    rssiBuf := []
    snrBuf := []
    packet_loss := 0 }

/-- Python `l[-100:]` applied when `len(l) > 100`. -/
def trim100 {γ : Type} (l : List γ) : List γ :=
  if l.length > 100 then l.drop (l.length - 100) else l

/-- The list comprehension `[fragments[i] for i in range(n)]` of
`_reassemble_message`: collects the bindings of keys `0 .. n-1` in
ascending order; a missing key raises `KeyError`, modelled as `none`. -/
def indexPackets (frags : List (Nat × Packet)) : Nat → Option (List Packet)
  | 0 => some []
  | n + 1 =>
    match indexPackets frags n, dictFind frags n with
    | some acc, some p => some (acc ++ [p])
    | _, _ => none

/-- `LoRaProtocolHandler._reassemble_message` (lines 283–297): read the
buffer for `message_id`, collect `fragments[i].payload` for
`i ∈ range(len(fragments))`, join, deliver upward and destroy the buffer.
A missing index raises `KeyError`, which the handler catches: the state is
then left unchanged (in particular the buffer is *not* destroyed).
`bytes.decode` is the identity under the byte-encoding convention. -/
def reassemble_message (s : RxState) (message_id : String) : RxState :=
  match dictFind s.received_fragments message_id with
  | none => s
  | some frags =>
    match indexPackets frags frags.length with
    | none => s
    | some pkts =>
      { s with
        receive_queue := s.receive_queue ++ [(pkts.map Packet.payload).flatten]
        received_fragments := dictErase s.received_fragments message_id }

/-- Lines 261–266 of `_handle_packet`: append the frame's rssi/snr to the
sample buffers and trim both to the last 100 samples when the rssi buffer
exceeds 100. -/
def record_signal (s : RxState) (p : Packet) : RxState :=
  let r := s.rssiBuf ++ [p.rssi]
  let sn := s.snrBuf ++ [p.snr]
  if r.length > 100 then
    { s with rssiBuf := trim100 r, snrBuf := trim100 sn }
  else
    { s with rssiBuf := r, snrBuf := sn }

/-- `LoRaProtocolHandler._handle_packet` (lines 253–281): drop and count a
CRC-mismatching frame; otherwise record signal samples, cancel a matching
pending tracker (implicit ACK), else store the fragment and reassemble
when the buffer size reaches the frame's `total_fragments`. -/
def handle_packet (s : RxState) (p : Packet) : RxState :=
  if crc32 p.payload ≠ p.crc then
    { s with packet_loss := s.packet_loss + 1 }
  else
    let s1 := record_signal s p
    if (dictFind s1.pending_acks p.message_id).isSome then
      { s1 with pending_acks := dictErase s1.pending_acks p.message_id }
    else
      let m := (dictFind s1.received_fragments p.message_id).getD []
      let m' := dictInsert m p.fragment_id p
      let s2 := { s1 with
        received_fragments := dictInsert s1.received_fragments p.message_id m' }
      if m'.length = p.total_fragments then
        reassemble_message s2 p.message_id
      else
        s2

/-- Feeding a sequence of inbound frames through `_handle_packet`. -/
def feed (s : RxState) (ps : List Packet) : RxState :=
  ps.foldl handle_packet s

/-- Sender-side state of `LoRaProtocolHandler`: the three per-priority
`queue.PriorityQueue` backing heaps, the `message_buffer`, the
`pending_acks` trackers, and the `retransmissions` / `packet_loss`
counters from `signal_stats`. -/
structure TxState where
  qHigh : List (Nat × Packet)
  qMed : List (Nat × Packet)
  qLow : List (Nat × Packet)
  message_buffer : List (String × List Nat)
  pending_acks : List (String × ℚ)
  retransmissions : Nat
  packet_loss : Nat
deriving DecidableEq, Repr

/-- A freshly constructed sender: all queues and buffers empty. -/
def freshTx : TxState :=
  { qHigh := [], qMed := [], qLow := [], message_buffer := []
    pending_acks := [], retransmissions := 0, packet_loss := 0 }

/-- `send_queue[priority]`. -/
def TxState.queue (s : TxState) : Priority → List (Nat × Packet)
  | .HIGH => s.qHigh
  | .MEDIUM => s.qMed
  | .LOW => s.qLow

/-- Replace `send_queue[priority]`. -/
def TxState.setQueue (s : TxState) : Priority → List (Nat × Packet) → TxState
  | .HIGH, q => { s with qHigh := q }
  | .MEDIUM, q => { s with qMed := q }
  | .LOW, q => { s with qLow := q }

/-- `queue.PriorityQueue.put` on the CPython heap: the item is appended to
the backing list, then sift-up compares `(value, packet)` tuples with the
parent slot.  Comparing tuples with equal first components falls through
to comparing two `LoRaPacket` values, which define no ordering, so a
`TypeError` is raised — *after* the append, so the item stays in the heap.
The returned flag is `true` iff the put completed without raising.  This
models the first sift-up comparison; it is exact for the queues this
program builds, whose entries all share one priority value (no sift-up
swap ever happens there). -/
def pqPut (q : List (Nat × Packet)) (it : Nat × Packet) :
    List (Nat × Packet) × Bool :=
  match q with
  | [] => ([it], true)
  | _ :: _ =>
    let parent := q.getD ((q.length - 1) / 2) it
    (q ++ [it], decide (it.1 ≠ parent.1 ∨ it.2 = parent.2))

/-- `LoRaProtocolHandler.send_message` (lines 102–120): fragment, store
the original payload in `message_buffer`, then put every fragment on the
chosen priority queue.  A `put` that raises aborts the loop and the raised
exception escapes `send_message` (it is logged and re-raised), so the
caller gets no message id: result `none`.  The state mutations made before
the raise — the buffer entry and the already-appended fragments — remain.
`message_id` generation (`time.time()` and `hash`) is supplied by the
caller as `mid`. -/
def send_message (s : TxState) (mid : String) (data : List Nat)
    (pr : Priority) (ts : ℚ) : TxState × Option String :=
  let frags := fragment_message mid data ts
  let s1 := { s with message_buffer := dictInsert s.message_buffer mid data }
  let qr := frags.foldl
    (fun (acc : List (Nat × Packet) × Bool) f =>
      if acc.2 then pqPut acc.1 (pr.value, f) else acc)
    (s1.queue pr, true)
  (s1.setQueue pr qr.1, if qr.2 then some mid else none)

/-- Body of the sweep in `LoRaProtocolHandler._check_pending_acks`
(lines 299–311), iterating over the snapshot `list(pending_acks.items())`:
each entry older than `ACK_TIMEOUT` whose id is still in `message_buffer`
bumps `retransmissions` and re-submits the buffered payload through
`send_message` at HIGH priority under a fresh id (`gen k` supplies the
fresh ids, `tf` the timestamp); the pending entry is then deleted.  If the
recursive `send_message` raises, the exception propagates out of the sweep
(the current entry is not deleted and the rest of the snapshot is not
processed). -/
def check_pending_go (now : ℚ) (gen : Nat → String) (tf : ℚ) :
    List (String × ℚ) → Nat → TxState → TxState
  | [], _, s => s
  | (mid, ts) :: rest, k, s =>
    if now - ts > ACK_TIMEOUT then
      match dictFind s.message_buffer mid with
      | some msg =>
        let s1 := { s with retransmissions := s.retransmissions + 1 }
        let res := send_message s1 (gen k) msg Priority.HIGH tf
        match res.2 with
        | none => res.1
        | some _ =>
          check_pending_go now gen tf rest (k + 1)
            { res.1 with pending_acks := dictErase res.1.pending_acks mid }
      | none =>
        check_pending_go now gen tf rest k
          { s with pending_acks := dictErase s.pending_acks mid }
    else
      check_pending_go now gen tf rest k s

/-- `LoRaProtocolHandler._check_pending_acks` (lines 299–311). -/
def check_pending_acks (now : ℚ) (gen : Nat → String) (tf : ℚ)
    (s : TxState) : TxState :=
  check_pending_go now gen tf s.pending_acks 0 s

/-- The three priority send queues as seen by `_send_loop`. -/
structure Queues where
  high : List (Nat × Packet)
  med : List (Nat × Packet)
  low : List (Nat × Packet)
deriving DecidableEq, Repr

/-- `queue.PriorityQueue.get_nowait` = CPython `heappop` on this
program's heaps, whose entries all share one priority value and carry
pairwise distinct packets.  A 1- or 2-element heap pops its FIFO head
without any element comparison.  From 3 elements up, `heappop` first
removes the last element and overwrites the root — the head frame — with
it, and the sift comparisons that follow compare two equal-priority
`LoRaPacket` values, raising `TypeError` (no `__lt__`): nothing is
returned (`none`), the head frame has been destroyed, and the heap is
left in the partially-sifted state traced from CPython's
`_siftup`/`_siftdown` (for 3 elements the raise happens after one
comparison-free move, leaving `[b, c]`; for 4 or more the first child
comparison raises at once, leaving `last :: middle`). -/
def pqGet : List (Nat × Packet) → Option (Nat × Packet) × List (Nat × Packet)
  | [] => (none, [])
  | [a] => (some a, [])
  | [a, b] => (some a, [b])
  | [_, b, c] => (none, [b, c])
  | _ :: b :: c :: d :: rest =>
    (none, (b :: c :: d :: rest).getLastD b ::
      (b :: c :: d :: rest).dropLast)

/-- One iteration of the queue service in `LoRaProtocolHandler._send_loop`
(lines 172–190): iterate priorities HIGH, MEDIUM, LOW; on the first
non-empty queue run `get_nowait` (`pqGet`) and transmit the frame it
returns; `break`.  When `get_nowait` raises (3 or more queued frames),
the exception is caught by the loop's handler: nothing is transmitted
this iteration (`none`) and the queue keeps the mutated heap. -/
def serveOne (q : Queues) : Option (Nat × Packet) × Queues :=
  match q.high with
  | _ :: _ => ((pqGet q.high).1, { q with high := (pqGet q.high).2 })
  | [] =>
    match q.med with
    | _ :: _ => ((pqGet q.med).1, { q with med := (pqGet q.med).2 })
    | [] =>
      match q.low with
      | _ :: _ => ((pqGet q.low).1, { q with low := (pqGet q.low).2 })
      | [] => (none, q)

/-- Scenario driver: run `k` iterations of the sender service; after each
transmission the producer enqueues the next item of `supply` on the HIGH
queue (a put on an empty HIGH queue, as `send_message` with a
single-fragment HIGH message performs).  Returns the transmitted frames
in order; stops if an iteration transmits nothing. -/
def driveRefill : List (Nat × Packet) → Nat → Queues → List (Nat × Packet)
  | _, 0, _ => []
  | supply, k + 1, q =>
    match serveOne q with
    | (none, _) => []
    | (some it, q') =>
      match supply with
      | [] => it :: driveRefill [] k q'
      | sitem :: ss =>
        it :: driveRefill ss k { q' with high := q'.high ++ [sitem] }

/-! ## Mesh routing engine (`src/mesh_network.py`) -/

/-- `MeshNetworkManager.MAX_HOPS`. -/
def MAX_HOPS : Nat := 5

/-- The `networkx.Graph` instance `network_graph`: an undirected weighted
graph, nodes added by `add_node` / implicitly by `add_edge`, one weight
per undirected edge. -/
structure Graph where
  nodes : List String
  edges : List (String × String × ℚ)
deriving DecidableEq, Repr

/-- Well-formedness maintained by networkx: every edge endpoint is a node
of the graph (`add_edge` inserts missing endpoints). -/
def Graph.WF (g : Graph) : Prop :=
  ∀ e ∈ g.edges, e.1 ∈ g.nodes ∧ e.2.1 ∈ g.nodes

/-- Weight of the undirected edge between `u` and `v`, if present. -/
def Graph.adjW (g : Graph) (u v : String) : Option ℚ :=
  (g.edges.find? (fun e =>
    decide ((e.1 = u ∧ e.2.1 = v) ∨ (e.1 = v ∧ e.2.1 = u)))).map
    (fun e => e.2.2)

/-- `u` and `v` are joined by an edge. -/
def Graph.adj (g : Graph) (u v : String) : Prop :=
  (g.adjW u v).isSome

instance (g : Graph) (u v : String) : Decidable (g.adj u v) := by
  unfold Graph.adj; infer_instance

/-- Neighbours of `u`: the opposite endpoints of its edges. -/
def Graph.nbrs (g : Graph) (u : String) : List String :=
  g.edges.filterMap (fun e =>
    if e.1 = u then some e.2.1
    else if e.2.1 = u then some e.1 else none)

/-- Extend a (reversed: head = current endpoint) simple path by one edge
to a vertex not already on the path. -/
def stepPaths (g : Graph) (p : List String) : List (List String) :=
  match p with
  | [] => []
  | u :: _ =>
    ((g.nbrs u).filter (fun v => decide (v ∉ p))).map (fun v => v :: p)

/-- All reversed simple paths that start (i.e. end, once reversed) at
`src` and have exactly `n` edges. -/
def pathsN (g : Graph) (src : String) : Nat → List (List String)
  | 0 => [[src]]
  | n + 1 => (pathsN g src n).flatMap (stepPaths g)

/-- All reversed simple paths from `src` whose head is `dst`.  Simple
paths have at most `|nodes|` vertices, so edge counts `0 .. |nodes|`
exhaust them. -/
def candidates (g : Graph) (src dst : String) : List (List String) :=
  ((List.range (g.nodes.length + 1)).flatMap (pathsN g src)).filter
    (fun p => decide (p.head? = some dst))

/-- Total weight of a vertex sequence (missing edges count 0; on genuine
paths every consecutive pair is an edge). -/
def pathWeight (g : Graph) : List String → ℚ
  | u :: v :: rest => ((g.adjW u v).getD 0) + pathWeight g (v :: rest)
  | _ => 0

/-- Select a minimum-weight element (first wins on ties). -/
def pickMin (g : Graph) : List (List String) → Option (List String)
  | [] => none
  | c :: cs =>
    some (cs.foldl (fun best p =>
      if pathWeight g p < pathWeight g best then p else best) c)

/-- Modelled from the spec / library behaviour: `networkx.shortest_path
(G, source, target, weight)` — `networkx` is a dependency, not repository
code.  Returns a minimum-total-weight simple path `[source, …, target]`,
or `none` when target is unreachable (`NetworkXNoPath`). -/
def shortest_path (g : Graph) (src dst : String) : Option (List String) :=
  (pickMin g (candidates g src dst)).map List.reverse

/-- Modelled from the spec / library behaviour:
`networkx.shortest_path_length(G, source, target)` with no weight — the
minimum number of edges between the endpoints, `none` when unreachable
(`NetworkXNoPath`). -/
def dist_unweighted (g : Graph) (u v : String) : Option Nat :=
  match (candidates g u v).map (fun p => p.length - 1) with
  | [] => none
  | x :: xs => some (xs.foldl min x)

/-- The body applied to one destination inside
`MeshNetworkManager._update_routing_table` (lines 235–278): weighted
shortest path from self to the destination; keep the entry `path[1]`
(the next hop) when `len(path) ≤ MAX_HOPS`. -/
def routeFor (g : Graph) (selfId dest : String) : Option String :=
  match shortest_path g selfId dest with
  | some p => if p.length ≤ MAX_HOPS then p.get? 1 else none
  | none => none

/-- `MeshNetworkManager._update_routing_table` (lines 235–278): rebuild
the routing table from scratch over the neighbour-table keys, skipping
`self`; unreachable destinations (`NetworkXNoPath`) are skipped. -/
def update_routing_table (selfId : String) (nbrKeys : List String)
    (g : Graph) : List (String × String) :=
  nbrKeys.filterMap (fun dest =>
    if dest = selfId then none
    else (routeFor g selfId dest).map (fun nh => (dest, nh)))

/-- `MeshNetworkManager._handle_route_update` (lines 308–322): for a
ROUTE_UPDATE from a known node, and for each advertised `(dest, next_hop)`
with `dest ≠ self`, compute the unweighted shortest-path length from self
to the advertiser; when it is `< MAX_HOPS` set
`routing_table[dest] = next_hop` (the *advertised* next hop).  An
unreachable advertiser raises `NetworkXNoPath` before any entry of the
update is written, leaving the table unchanged — which the all-skips fold
below reproduces. -/
def handle_route_update (selfId : String) (nodeKeys : List String)
    (g : Graph) (table : List (String × String)) (srcNode : String)
    (routes : List (String × String)) : List (String × String) :=
  if srcNode ∈ nodeKeys then
    routes.foldl (fun acc pr =>
      if pr.1 ≠ selfId then
        match dist_unweighted g selfId srcNode with
        | some d => if d < MAX_HOPS then dictInsert acc pr.1 pr.2 else acc
        | none => acc
      else acc) table
  else table

/-- A DATA envelope as consumed by `_handle_data`. -/
structure DataMsg where
  source : String
  destination : String
  next_hop : String
  payload : List Nat
deriving DecidableEq, Repr

/-- Observable outcome of `_handle_data`; `errored` is the exception of
the nested `lora.send_message` propagating out of the handler (caught and
logged by `_message_handler`). -/
inductive DataAction where
  | deliver (source : String) (payload : List Nat)
  | forward (m : DataMsg)
  | noRoute
  | ignore
  | errored
deriving DecidableEq, Repr

/-- `MeshNetworkManager._handle_data` (lines 324–345) composed with the
link-layer `send_message` it calls at line 337: deliver upward (the local
receipt log) when `destination == self`; else when `next_hop == self` and
the routing table has an entry, rewrite `next_hop` and submit the
re-serialized envelope to `lora.send_message` at MEDIUM priority — `enc`
is the UTF-8 byte encoding of `json.dumps` of the rewritten envelope
(only its length matters here), `mid`/`ts` the link layer's fresh message
id and timestamp.  Only if that send returns is `messages_forwarded`
bumped by one (third component); if it raises (> 210-byte encoding, or an
occupied equal-priority heap slot), the exception propagates before line
342: the counter stays, and the link state keeps the send's partial
mutations.  No entry drops with the `NoRoute` warning; any other frame is
ignored.  (`total_bandwidth` is also bumped on a completed forward; it is
not at issue in the claims.) -/
def handle_data (selfId : String) (table : List (String × String))
    (tx : TxState) (m : DataMsg) (enc : List Nat) (mid : String)
    (ts : ℚ) : DataAction × TxState × Nat :=
  if m.destination = selfId then
    (DataAction.deliver m.source m.payload, tx, 0)
  else if m.next_hop = selfId then
    match dictFind table m.destination with
    | some nh =>
      let res := send_message tx mid enc Priority.MEDIUM ts
      match res.2 with
      | some _ => (DataAction.forward { m with next_hop := nh }, res.1, 1)
      | none => (DataAction.errored, res.1, 0)
    | none => (DataAction.noRoute, tx, 0)
  else
    (DataAction.ignore, tx, 0)

/-! ## Association-list (Python dict) lemmas -/

section DictLemmas

variable {α β : Type} [DecidableEq α]

theorem dictFind_insert_self (l : List (α × β)) (k : α) (v : β) :
    dictFind (dictInsert l k v) k = some v := by
  induction l with
  | nil => simp [dictInsert, dictFind]
  | cons hd t ih =>
    rw [dictInsert]
    by_cases hk : hd.1 = k
    · rw [if_pos hk, dictFind, if_pos rfl]
    · rw [if_neg hk, dictFind, if_neg hk]
      exact ih

theorem dictFind_insert_ne (l : List (α × β)) (k k' : α) (v : β)
    (h : k' ≠ k) : dictFind (dictInsert l k v) k' = dictFind l k' := by
  induction l with
  | nil =>
    simp only [dictInsert, dictFind]
    rw [if_neg (fun hh : k = k' => h hh.symm)]
  | cons hd t ih =>
    rw [dictInsert]
    by_cases hk : hd.1 = k
    · rw [if_pos hk, dictFind, dictFind,
        if_neg (fun hh : k = k' => h hh.symm), if_neg (hk ▸ (fun hh : hd.1 = k' => h (hk ▸ hh).symm))]
    · rw [if_neg hk, dictFind, dictFind]
      split
      · rfl
      · exact ih

theorem dictInsert_of_notfound (l : List (α × β)) (k : α) (v : β)
    (h : dictFind l k = none) : dictInsert l k v = l ++ [(k, v)] := by
  induction l with
  | nil => simp [dictInsert]
  | cons hd t ih =>
    rw [dictFind] at h
    by_cases hk : hd.1 = k
    · rw [if_pos hk] at h
      exact absurd h (by simp)
    · rw [if_neg hk] at h
      rw [dictInsert, if_neg hk, ih h, List.cons_append]

theorem dictFind_isSome_iff (l : List (α × β)) (k : α) :
    (dictFind l k).isSome ↔ k ∈ l.map Prod.fst := by
  induction l with
  | nil => simp [dictFind]
  | cons hd t ih =>
    rw [dictFind]
    by_cases hk : hd.1 = k
    · simp [hk]
    · simp only [if_neg hk, List.map_cons, List.mem_cons, ih]
      constructor
      · exact fun h => Or.inr h
      · rintro (h | h)
        · exact absurd h.symm hk
        · exact h

theorem dictFind_eq_some_of_mem (l : List (α × β)) (k : α) (v : β)
    (hnd : (l.map Prod.fst).Nodup) (hm : (k, v) ∈ l) :
    dictFind l k = some v := by
  induction l with
  | nil => simp at hm
  | cons hd t ih =>
    rw [List.map_cons, List.nodup_cons] at hnd
    rw [dictFind]
    rcases List.mem_cons.mp hm with h | h
    · rw [← h]
      simp
    · have hk : hd.1 ≠ k := by
        intro hh
        exact hnd.1 (hh ▸ (List.mem_map.mpr ⟨(k, v), h, rfl⟩))
      rw [if_neg hk]
      exact ih hnd.2 h

theorem dictInsert_keys (l : List (α × β)) (k : α) (v : β) :
    (dictInsert l k v).map Prod.fst =
      if (dictFind l k).isSome then l.map Prod.fst
      else l.map Prod.fst ++ [k] := by
  induction l with
  | nil => simp [dictInsert, dictFind]
  | cons hd t ih =>
    rw [dictInsert, dictFind]
    by_cases hk : hd.1 = k
    · rw [if_pos hk, if_pos hk]
      simp [hk]
    · rw [if_neg hk, if_neg hk, List.map_cons, ih]
      split
      · rfl
      · rw [List.map_cons, List.cons_append]

end DictLemmas

/-! ## Claim C6 — CRC rejection -/

/-- C6 (confirmed).  A frame whose declared `crc` differs from the IEEE
CRC-32 of its payload is dropped by `_handle_packet` with
`packet_loss` incremented by exactly one and *no other state change*: no
reassembly buffer is touched, no rssi/snr sample recorded, no pending
tracker cancelled, nothing delivered upward. -/
theorem crc_mismatch_only_counts (s : RxState) (p : Packet)
    (h : crc32 p.payload ≠ p.crc) :
    handle_packet s p = { s with packet_loss := s.packet_loss + 1 } := by
  unfold handle_packet
  rw [if_pos h]

/-- A frame with empty payload but declared crc 1. -/
def badCrcPacket : Packet :=
  { message_id := "w"
    fragment_id := 0
    total_fragments := 1
    priority := Priority.MEDIUM
    payload := []
    crc := 1
    rssi := 0
    snr := 0
    timestamp := 0 }

/-- Witness for `crc_mismatch_only_counts` at a concrete frame. -/
theorem crc_mismatch_only_counts_witness :
    crc32 badCrcPacket.payload ≠ badCrcPacket.crc ∧
      handle_packet freshRx badCrcPacket =
        { freshRx with packet_loss := freshRx.packet_loss + 1 } :=
  ⟨by decide, crc_mismatch_only_counts freshRx badCrcPacket (by decide)⟩

/-! ## Claim C7 — transmit scheduling -/

/-- The `i`-th frame of a HIGH-priority message stream. -/
def highFrame (i : Nat) : Packet :=
  { message_id := "h"
    fragment_id := i
    total_fragments := 5
    priority := Priority.HIGH
    payload := [i]
    crc := 0
    rssi := 0
    snr := 0
    timestamp := 0 }

/-- A waiting MEDIUM-priority frame. -/
def medFrame : Packet :=
  { message_id := "t"
    fragment_id := 0
    total_fragments := 1
    priority := Priority.MEDIUM
    payload := [9]
    crc := 0
    rssi := 0
    snr := 0
    timestamp := 0 }

/-- C7 counterexample.  With a MEDIUM frame waiting the whole time and the
HIGH queue refilled after each transmission, the first five frames the
sender loop transmits are all HIGH frames — the MEDIUM frame is not among
them.  The claimed burst bound (at most `HIGH_BURST = 4` HIGH frames
drained before serving MEDIUM, with LOW resuming within `HIGH_BURST + 1`
frames) is therefore false of `_send_loop`: no such constants exist in the
code and lower priorities are starved as long as HIGH frames keep
arriving. -/
theorem burst_bound_refuted :
    driveRefill
        [(1, highFrame 1), (1, highFrame 2), (1, highFrame 3),
          (1, highFrame 4)] 5
        { high := [(1, highFrame 0)], med := [(2, medFrame)], low := [] } =
      [(1, highFrame 0), (1, highFrame 1), (1, highFrame 2),
        (1, highFrame 3), (1, highFrame 4)] ∧
    (2, medFrame) ∉
      driveRefill
        [(1, highFrame 1), (1, highFrame 2), (1, highFrame 3),
          (1, highFrame 4)] 5
        { high := [(1, highFrame 0)], med := [(2, medFrame)], low := [] } := by
  constructor
  · rfl
  · decide

/-- The non-default branch of `getLastD` returns a list element. -/
theorem getLastD_mem {α : Type} (l : List α) (d : α) (h : l ≠ []) :
    l.getLastD d ∈ l := by
  rcases l with _ | ⟨x, t⟩
  · exact absurd rfl h
  · rw [List.getLastD_eq_getLast?]
    rcases hg : (x :: t).getLast? with _ | y
    · rw [List.getLast?_eq_none_iff] at hg
      exact absurd hg (by simp)
    · exact List.mem_of_getLast?_eq_some hg

/-- C7 (corrected).  Each iteration of `_send_loop` serves the first
non-empty queue in the strict order HIGH, MEDIUM, LOW via `get_nowait`:
a queue of one or two frames transmits its FIFO head; a queue of three
or more equal-priority frames makes `get_nowait` raise `TypeError`
(`LoRaPacket` is unordered), so nothing is transmitted that iteration and
the head frame is destroyed.  MEDIUM is served only when HIGH is empty,
LOW only when both are empty, and no burst bound limits how long lower
priorities wait. -/
theorem strict_priority_service (q : Queues) :
    (q.high ≠ [] →
      serveOne q = ((pqGet q.high).1, { q with high := (pqGet q.high).2 })) ∧
    (q.high = [] → q.med ≠ [] →
      serveOne q = ((pqGet q.med).1, { q with med := (pqGet q.med).2 })) ∧
    (q.high = [] → q.med = [] → q.low ≠ [] →
      serveOne q = ((pqGet q.low).1, { q with low := (pqGet q.low).2 })) ∧
    (q.high = [] → q.med = [] → q.low = [] → serveOne q = (none, q)) ∧
    (∀ it, pqGet [it] = (some it, [])) ∧
    (∀ it it2, pqGet [it, it2] = (some it, [it2])) ∧
    (∀ a b c rest, (pqGet (a :: b :: c :: rest)).1 = none ∧
      (a ∉ b :: c :: rest → a ∉ (pqGet (a :: b :: c :: rest)).2)) := by
  refine ⟨?_, ?_, ?_, ?_, fun it => rfl, fun it it2 => rfl, ?_⟩
  · intro h1
    rcases hq : q.high with _ | ⟨x, t⟩
    · exact absurd hq h1
    · simp [serveOne, hq]
  · intro h1 h2
    rcases hq : q.med with _ | ⟨x, t⟩
    · exact absurd hq h2
    · simp [serveOne, h1, hq]
  · intro h1 h2 h3
    rcases hq : q.low with _ | ⟨x, t⟩
    · exact absurd hq h3
    · simp [serveOne, h1, h2, hq]
  · intro h1 h2 h3
    simp [serveOne, h1, h2, h3]
  · intro a b c rest
    rcases rest with _ | ⟨d, rest2⟩
    · refine ⟨rfl, ?_⟩
      intro hnotin hmem
      exact hnotin hmem
    · refine ⟨rfl, ?_⟩
      intro hnotin hmem
      rcases List.mem_cons.mp hmem with hmem | hmem
      · exact hnotin (hmem ▸
          getLastD_mem (b :: c :: d :: rest2) b (by simp))
      · exact hnotin (List.dropLast_subset _ hmem)

/-- Witness for `strict_priority_service`: with a single HIGH frame and a
MEDIUM frame queued, the HIGH frame is served. -/
theorem strict_priority_service_witness :
    serveOne { high := [(1, highFrame 0)], med := [(2, medFrame)], low := [] }
      = (some (1, highFrame 0),
        { high := [], med := [(2, medFrame)], low := [] }) :=
  (strict_priority_service
    { high := [(1, highFrame 0)], med := [(2, medFrame)], low := [] }).1
    (by simp)

/-! ## Claim C10 — empty-payload black hole -/

/-- Identity: writing back the queue a priority already has changes
nothing. -/
theorem setQueue_queue (s : TxState) (pr : Priority) :
    s.setQueue pr (s.queue pr) = s := by
  cases pr <;> rfl

/-- C10 (confirmed).  `send_message` with the empty payload returns a
message id and records the payload in `message_buffer`, but
`_fragment_message` yields zero fragments (`total_fragments = 0`), so
nothing is enqueued on any priority queue and no pending-ack tracker is
ever created (trackers are only created when a queued fragment is
transmitted): the message is silently lost while its buffer entry
persists. -/
theorem empty_message_black_hole (s : TxState) (mid : String)
    (pr : Priority) (ts : ℚ) :
    fragment_message mid [] ts = [] ∧
    send_message s mid [] pr ts =
      ({ s with message_buffer := dictInsert s.message_buffer mid [] },
        some mid) ∧
    dictFind (send_message s mid [] pr ts).1.message_buffer mid =
      some [] := by
  have hfrag : fragment_message mid [] ts = [] := rfl
  refine ⟨hfrag, ?_, ?_⟩
  · unfold send_message
    rw [hfrag]
    simp only [List.foldl_nil]
    rw [setQueue_queue]
    simp
  · unfold send_message
    rw [hfrag]
    simp only [List.foldl_nil]
    cases pr <;>
      simp [TxState.setQueue, dictFind_insert_self]

/-! ## Claim C2 — oversize send raises, non-atomically -/

/-- Updating a queue leaves `message_buffer` unchanged. -/
theorem setQueue_buffer (s : TxState) (pr : Priority)
    (q : List (Nat × Packet)) :
    (s.setQueue pr q).message_buffer = s.message_buffer := by
  cases pr <;> rfl

/-- The buffer update of `send_message` leaves the queues unchanged. -/
theorem queue_after_buffer (s : TxState) (pr : Priority) (mid : String)
    (data : List Nat) :
    ({ s with message_buffer := dictInsert s.message_buffer mid data} :
      TxState).queue pr = s.queue pr := by
  cases pr <;> rfl

/-- Once a put has raised, the enqueue loop performs no further work. -/
theorem foldl_skip_false (v : Nat) (l : List Packet)
    (q : List (Nat × Packet)) :
    l.foldl (fun acc f => if acc.2 then pqPut acc.1 (v, f) else acc)
      (q, false) = (q, false) := by
  induction l with
  | nil => rfl
  | cons a t ih =>
    simp only [List.foldl_cons]
    rw [if_neg (by simp)]
    exact ih

/-- A payload longer than 210 bytes yields at least two fragments, the
first two having fragment ids 0 and 1 and the common `message_id`. -/
theorem fragment_message_two (mid : String) (data : List Nat) (ts : ℚ)
    (h : 210 < data.length) :
    ∃ f0 f1 rest, fragment_message mid data ts = f0 :: f1 :: rest ∧
      f0.message_id = mid ∧ f1.message_id = mid ∧
      f0.fragment_id = 0 ∧ f1.fragment_id = 1 := by
  have hps : PAYLOAD_SIZE = 210 := rfl
  have htot : 2 ≤ (data.length + PAYLOAD_SIZE - 1) / PAYLOAD_SIZE := by
    rw [hps]
    rw [Nat.le_div_iff_mul_le (by norm_num : 0 < 210)]
    omega
  obtain ⟨k, hk⟩ : ∃ k, (data.length + PAYLOAD_SIZE - 1) / PAYLOAD_SIZE =
      k + 2 := ⟨(data.length + PAYLOAD_SIZE - 1) / PAYLOAD_SIZE - 2, by omega⟩
  unfold fragment_message
  simp only [hk, List.range_succ_eq_map, List.map_cons]
  exact ⟨_, _, _, rfl, rfl, rfl, rfl, rfl⟩

/-- Unfolding `pqPut` on a non-empty heap. -/
theorem pqPut_cons (x : Nat × Packet) (xs : List (Nat × Packet))
    (it : Nat × Packet) :
    pqPut (x :: xs) it =
      ((x :: xs) ++ [it],
        decide (it.1 ≠ ((x :: xs).getD (((x :: xs).length - 1) / 2) it).1 ∨
          it.2 = ((x :: xs).getD (((x :: xs).length - 1) / 2) it).2)) := rfl

/-- Enqueuing two distinct same-key fragments onto a queue whose entries
all carry key `v` and none of whose packets equals the first fragment
always ends with the raised flag. -/
theorem put_two_fails (q : List (Nat × Packet)) (v : Nat)
    (f0 f1 : Packet) (rest : List Packet)
    (hkeys : ∀ it ∈ q, it.1 = v)
    (hfresh : ∀ it ∈ q, it.2 ≠ f0)
    (hne : f1 ≠ f0) :
    ((f0 :: f1 :: rest).foldl
      (fun acc f => if acc.2 then pqPut acc.1 (v, f) else acc)
      (q, true)).2 = false := by
  rw [List.foldl_cons]
  have hstep0 : (if ((q, true) : List (Nat × Packet) × Bool).2 then
      pqPut q (v, f0) else (q, true)) = pqPut q (v, f0) := if_pos rfl
  rw [hstep0]
  rcases hq : q with _ | ⟨x, xs⟩
  · have hput0 : pqPut [] (v, f0) = ([(v, f0)], true) := rfl
    rw [hput0, List.foldl_cons]
    have hstep1 : (if (([(v, f0)], true) :
        List (Nat × Packet) × Bool).2 then
        pqPut [(v, f0)] (v, f1) else ([(v, f0)], true)) =
        pqPut [(v, f0)] (v, f1) := if_pos rfl
    rw [hstep1]
    have hput1 : pqPut [(v, f0)] (v, f1) =
        ([(v, f0), (v, f1)], false) := by
      rw [pqPut_cons]
      simp [hne]
    rw [hput1, foldl_skip_false]
  · have hidx : (((x :: xs) : List (Nat × Packet)).length - 1) / 2 <
        ((x :: xs) : List (Nat × Packet)).length := by
      simp only [List.length_cons]
      omega
    set parent := ((x :: xs) : List (Nat × Packet)).getD
      ((((x :: xs) : List (Nat × Packet)).length - 1) / 2) (v, f0)
      with hpar
    have hparmem : parent ∈ x :: xs := by
      rw [hpar, List.getD_eq_getElem _ _ hidx]
      exact List.getElem_mem hidx
    have hkey : parent.1 = v := hkeys parent (hq ▸ hparmem)
    have hpne : ¬((v, f0).1 ≠ parent.1 ∨ (v, f0).2 = parent.2) := by
      rintro (h | h)
      · exact h hkey.symm
      · exact (hfresh parent (hq ▸ hparmem)) h.symm
    have hput0 : pqPut (x :: xs) (v, f0) =
        ((x :: xs) ++ [(v, f0)], false) := by
      rw [pqPut_cons, ← hpar, decide_eq_false hpne]
    rw [hput0, List.foldl_cons]
    have hstep1 : (if (((x :: xs) ++ [(v, f0)], false) :
        List (Nat × Packet) × Bool).2 then
        pqPut ((x :: xs) ++ [(v, f0)]) (v, f1)
        else ((x :: xs) ++ [(v, f0)], false)) =
        ((x :: xs) ++ [(v, f0)], false) := if_neg (by simp)
    rw [hstep1, foldl_skip_false]

/-- C2 (confirmed).  For any payload encoding to more than
`MAX_PACKET_SIZE - HEADER_SIZE = 210` bytes, `send_message` raises
instead of returning a message id: enqueueing a fragment onto a
`PriorityQueue` whose heap already holds an entry with the same priority
value but a different `LoRaPacket` compares the two packets, and
`LoRaPacket` defines no ordering (`TypeError`).  The payload was stored in
`message_buffer` before the puts, so the failed call leaves state behind
(non-atomic failure).  The first two hypotheses are the reachable-state
facts that queue entries carry their queue's priority value and that the
fresh `message_id` is not already queued. -/
theorem oversize_send_raises (s : TxState) (mid : String)
    (data : List Nat) (pr : Priority) (ts : ℚ)
    (hkeys : ∀ it ∈ s.queue pr, it.1 = pr.value)
    (hfresh : ∀ it ∈ s.queue pr, it.2.message_id ≠ mid)
    (hlen : 210 < data.length) :
    (send_message s mid data pr ts).2 = none ∧
    dictFind (send_message s mid data pr ts).1.message_buffer mid =
      some data := by
  obtain ⟨f0, f1, rest, hfr, hm0, hm1, hi0, hi1⟩ :=
    fragment_message_two mid data ts hlen
  constructor
  · have hfold := put_two_fails (s.queue pr) pr.value f0 f1 rest hkeys
      (fun it hmem heq => hfresh it hmem (by rw [heq, hm0]))
      (fun hh => by rw [hh, hi0] at hi1; exact absurd hi1 (by norm_num))
    simp only [send_message, queue_after_buffer, hfr]
    rw [hfold]
    simp
  · simp only [send_message, setQueue_buffer]
    exact dictFind_insert_self _ _ _

/-- Witness for `oversize_send_raises` on a fresh handler and a 211-byte
payload. -/
theorem oversize_send_raises_witness :
    210 < (List.replicate 211 0).length ∧
    (send_message freshTx "m" (List.replicate 211 0)
        Priority.MEDIUM 0).2 = none ∧
    dictFind (send_message freshTx "m" (List.replicate 211 0)
        Priority.MEDIUM 0).1.message_buffer "m" =
      some (List.replicate 211 0) := by
  have hq : freshTx.queue Priority.MEDIUM = [] := rfl
  have hlen : 210 < (List.replicate 211 (0 : Nat)).length := by
    rw [List.length_replicate]
    omega
  refine ⟨hlen, ?_⟩
  exact oversize_send_raises freshTx "m" (List.replicate 211 0)
    Priority.MEDIUM 0
    (fun it hmem => absurd (hq ▸ hmem) (List.not_mem_nil it))
    (fun it hmem => absurd (hq ▸ hmem) (List.not_mem_nil it))
    hlen

/-! ## Claim C3 — retransmission policy -/

/-- A non-empty payload of at most 210 bytes yields exactly one fragment
carrying the whole payload. -/
theorem fragment_message_one (mid : String) (msg : List Nat) (ts : ℚ)
    (hne : msg ≠ []) (hlen : msg.length ≤ 210) :
    fragment_message mid msg ts =
      [{ message_id := mid
         fragment_id := 0
         total_fragments := 1
         priority := Priority.MEDIUM
         payload := msg
         crc := crc32 msg
         rssi := 0
         snr := 0
         timestamp := ts }] := by
  have hps : PAYLOAD_SIZE = 210 := rfl
  have hpos : 0 < msg.length := List.length_pos.mpr hne
  have h1 : (msg.length + PAYLOAD_SIZE - 1) / PAYLOAD_SIZE = 1 := by
    rw [hps]
    have a : 1 ≤ (msg.length + 210 - 1) / 210 :=
      (Nat.le_div_iff_mul_le (by norm_num)).mpr (by omega)
    have b : (msg.length + 210 - 1) / 210 < 2 :=
      (Nat.div_lt_iff_lt_mul (by norm_num)).mpr (by omega)
    omega
  have htake : msg.take PAYLOAD_SIZE = msg :=
    List.take_of_length_le (by rw [hps]; exact hlen)
  unfold fragment_message
  simp only [h1]
  rw [show List.range 1 = [0] from rfl]
  simp only [List.map_cons, List.map_nil, Nat.zero_mul, List.drop_zero,
    htake]

/-- A single-fragment `send_message` on an empty HIGH queue succeeds:
the buffer gains the payload under the fresh id and the one fragment is
enqueued with priority value 1. -/
theorem send_small_on_empty (s : TxState) (mid : String) (msg : List Nat)
    (ts : ℚ) (hne : msg ≠ []) (hlen : msg.length ≤ 210)
    (hq : s.qHigh = []) :
    send_message s mid msg Priority.HIGH ts =
      ({ s with
          message_buffer := dictInsert s.message_buffer mid msg
          qHigh := [(1,
            { message_id := mid
              fragment_id := 0
              total_fragments := 1
              priority := Priority.MEDIUM
              payload := msg
              crc := crc32 msg
              rssi := 0
              snr := 0
              timestamp := ts })] }, some mid) := by
  unfold send_message
  rw [fragment_message_one mid msg ts hne hlen]
  simp only [List.foldl_cons, List.foldl_nil]
  have hq1 : ({ s with
      message_buffer := dictInsert s.message_buffer mid msg } :
      TxState).queue Priority.HIGH = [] := hq
  rw [if_pos trivial, hq1]
  rfl

/-- A single-fragment `send_message` onto a HIGH queue already occupied
by an equal-key frame of a different message raises: the one put's
sift-up comparison puts two unordered `LoRaPacket` values side by side. -/
theorem send_small_on_busy (s : TxState) (mid : String) (msg : List Nat)
    (ts : ℚ) (p : Packet) (hne : msg ≠ []) (hlen : msg.length ≤ 210)
    (hq : s.qHigh = [(1, p)]) (hx : p.message_id ≠ mid) :
    (send_message s mid msg Priority.HIGH ts).2 = none := by
  unfold send_message
  rw [fragment_message_one mid msg ts hne hlen]
  simp only [List.foldl_cons, List.foldl_nil]
  have hq1 : ({ s with
      message_buffer := dictInsert s.message_buffer mid msg } :
      TxState).queue Priority.HIGH = [(1, p)] := hq
  rw [if_pos trivial, hq1, pqPut_cons]
  have hfr : ({ message_id := mid
                fragment_id := 0
                total_fragments := 1
                priority := Priority.MEDIUM
                payload := msg
                crc := crc32 msg
                rssi := 0
                snr := 0
                timestamp := ts } : Packet) ≠ p := by
    intro h
    exact hx (by rw [← h])
  simp [Priority.value, hfr]

/-- The concrete sweep scenario: one tracker (`"m0"`, sent at time 0) and
its 1-byte buffered message, swept at time 3 (> `ACK_TIMEOUT` = 2). -/
def sweepState : TxState :=
  { freshTx with
      pending_acks := [("m0", 0)]
      message_buffer := [("m0", [7])] }

/-- Fresh-id supply used in the sweep scenario. -/
def genR : Nat → String := fun _ => "r0"

/-- Full evaluation of the sweep on a single timed-out tracker whose
buffered message fits in one fragment, with an idle HIGH queue: the
retransmission counter is bumped, the message is re-fragmented under the
fresh id and enqueued HIGH, and the tracker entry is deleted. -/
theorem sweep_single (s : TxState) (mid : String)
    (ts now tf : ℚ) (gen : Nat → String) (msg : List Nat)
    (hp : s.pending_acks = [(mid, ts)])
    (hto : now - ts > ACK_TIMEOUT)
    (hbuf : dictFind s.message_buffer mid = some msg)
    (hne : msg ≠ [])
    (hlen : msg.length ≤ 210)
    (hq : s.qHigh = []) :
    check_pending_acks now gen tf s =
      { qHigh := [(1,
          { message_id := gen 0
            fragment_id := 0
            total_fragments := 1
            priority := Priority.MEDIUM
            payload := msg
            crc := crc32 msg
            rssi := 0
            snr := 0
            timestamp := tf })]
        qMed := s.qMed
        qLow := s.qLow
        message_buffer := dictInsert s.message_buffer (gen 0) msg
        pending_acks := []
        retransmissions := s.retransmissions + 1
        packet_loss := s.packet_loss } := by
  have hsend := send_small_on_empty
    ({ s with retransmissions := s.retransmissions + 1 }) (gen 0) msg tf
    hne hlen hq
  unfold check_pending_acks
  rw [hp]
  unfold check_pending_go
  rw [if_pos hto]
  simp only [hbuf]
  rw [hsend]
  simp only [check_pending_go]
  rw [show ({ s with retransmissions := s.retransmissions + 1
      } : TxState).pending_acks = [(mid, ts)] from hp]
  simp [dictErase]

/-- C3 counterexample.  Sweeping a single timed-out tracker re-enqueues
the message's fragment under the *fresh* id `"r0"`, not the tracked id
`"m0"` (the code calls `send_message` again, which re-fragments under a
new id), deletes the tracker immediately on this first timeout instead of
keeping a retry count up to `RETRY_LIMIT`, and leaves `packet_loss`
untouched — contradicting the claimed counter/`RETRY_LIMIT`/same-id
policy. -/
theorem retry_policy_refuted :
    (check_pending_acks 3 genR 10 sweepState).pending_acks = [] ∧
    (check_pending_acks 3 genR 10 sweepState).qHigh.map
        (fun it => it.2.message_id) = ["r0"] ∧
    ("r0" : String) ≠ "m0" ∧
    (check_pending_acks 3 genR 10 sweepState).packet_loss = 0 ∧
    (check_pending_acks 3 genR 10 sweepState).retransmissions = 1 := by
  have h := sweep_single sweepState "m0" 0 3 10 genR [7] rfl
    (by norm_num [ACK_TIMEOUT]) rfl (by decide) (by decide) rfl
  rw [h]
  refine ⟨rfl, rfl, by decide, rfl, rfl⟩

/-- `send_message` never touches the pending-ACK table, the
retransmission counter or the loss counter. -/
theorem send_message_untouched (s : TxState) (mid : String)
    (data : List Nat) (pr : Priority) (ts : ℚ) :
    (send_message s mid data pr ts).1.pending_acks = s.pending_acks ∧
    (send_message s mid data pr ts).1.retransmissions =
      s.retransmissions ∧
    (send_message s mid data pr ts).1.packet_loss = s.packet_loss := by
  cases pr <;> exact ⟨rfl, rfl, rfl⟩

/-- An oversize (> 210-byte) payload always makes `send_message` raise,
under the reachable-state facts that queue entries carry their queue's
priority value and the fresh id is not already queued. -/
theorem send_oversize_flag (s : TxState) (mid : String) (data : List Nat)
    (pr : Priority) (ts : ℚ)
    (hkeys : ∀ it ∈ s.queue pr, it.1 = pr.value)
    (hfresh : ∀ it ∈ s.queue pr, it.2.message_id ≠ mid)
    (hlen : 210 < data.length) :
    (send_message s mid data pr ts).2 = none := by
  obtain ⟨f0, f1, rest, hfr, hm0, hm1, hi0, hi1⟩ :=
    fragment_message_two mid data ts hlen
  have hfold := put_two_fails (s.queue pr) pr.value f0 f1 rest hkeys
    (fun it hmem heq => hfresh it hmem (by rw [heq, hm0]))
    (fun hh => by rw [hh, hi0] at hi1; exact absurd hi1 (by norm_num))
  simp only [send_message, queue_after_buffer, hfr]
  rw [hfold]
  simp

/-- If the recursive resend of the first snapshot entry raises, the sweep
aborts with the failed send's state: the tracker table survives intact
(the `del` never runs, and no later snapshot entry is visited), the
retransmission counter was already bumped before the raise, and
`packet_loss` is untouched. -/
theorem sweep_abort (s : TxState) (mid : String) (ts now tf : ℚ)
    (gen : Nat → String) (msg : List Nat) (rest : List (String × ℚ))
    (hp : s.pending_acks = (mid, ts) :: rest)
    (hto : now - ts > ACK_TIMEOUT)
    (hbuf : dictFind s.message_buffer mid = some msg)
    (hflag : (send_message
        { s with retransmissions := s.retransmissions + 1 } (gen 0) msg
        Priority.HIGH tf).2 = none) :
    (check_pending_acks now gen tf s).pending_acks = s.pending_acks ∧
    (check_pending_acks now gen tf s).retransmissions =
      s.retransmissions + 1 ∧
    (check_pending_acks now gen tf s).packet_loss = s.packet_loss := by
  have hgo : check_pending_go now gen tf ((mid, ts) :: rest) 0 s =
      (send_message { s with retransmissions := s.retransmissions + 1 }
        (gen 0) msg Priority.HIGH tf).1 := by
    unfold check_pending_go
    rw [if_pos hto]
    simp only [hbuf]
    split
    · rfl
    · rename_i x hsome
      rw [hflag] at hsome
      exact absurd hsome (by simp)
  have hstate : check_pending_acks now gen tf s =
      (send_message { s with retransmissions := s.retransmissions + 1 }
        (gen 0) msg Priority.HIGH tf).1 := by
    unfold check_pending_acks
    conv_lhs => rw [hp]
    exact hgo
  have hunt := send_message_untouched
    { s with retransmissions := s.retransmissions + 1 } (gen 0) msg
    Priority.HIGH tf
  refine ⟨?_, ?_, ?_⟩
  · rw [hstate, hunt.1]
  · rw [hstate, hunt.2.1]
  · rw [hstate, hunt.2.2]

/-- C3 (corrected).  The sweep finds every pending tracker older than
`ACK_TIMEOUT`; when its `message_id` is still in `message_buffer` it
increments `retransmissions` and re-submits the *whole buffered message*
through `send_message` at HIGH priority under a fresh `message_id`
(re-fragmenting — the original frames are not re-enqueued and the id is
not preserved).  When that recursive send completes — a single-fragment
message onto an idle HIGH queue — the tracker entry is deleted on this
first timeout.  When the recursive send raises — a buffered message over
210 bytes, or a single-fragment resend onto a HIGH queue already holding
an equal-key frame of another message — the exception aborts the sweep:
the tracker is *not* deleted, and no later snapshot entry is processed.
In every branch `RETRY_LIMIT` is never consulted, no per-message retry
counter exists, and `packet_loss` is not incremented. -/
theorem sweep_resend_policy :
    (∀ (s : TxState) (mid : String) (ts now tf : ℚ) (gen : Nat → String)
      (msg : List Nat),
      s.pending_acks = [(mid, ts)] →
      now - ts > ACK_TIMEOUT →
      dictFind s.message_buffer mid = some msg →
      msg ≠ [] → msg.length ≤ 210 → s.qHigh = [] →
      check_pending_acks now gen tf s =
        { qHigh := [(1,
            { message_id := gen 0
              fragment_id := 0
              total_fragments := 1
              priority := Priority.MEDIUM
              payload := msg
              crc := crc32 msg
              rssi := 0
              snr := 0
              timestamp := tf })]
          qMed := s.qMed
          qLow := s.qLow
          message_buffer := dictInsert s.message_buffer (gen 0) msg
          pending_acks := []
          retransmissions := s.retransmissions + 1
          packet_loss := s.packet_loss }) ∧
    (∀ (s : TxState) (mid : String) (ts now tf : ℚ) (gen : Nat → String)
      (msg : List Nat) (rest : List (String × ℚ)),
      s.pending_acks = (mid, ts) :: rest →
      now - ts > ACK_TIMEOUT →
      dictFind s.message_buffer mid = some msg →
      210 < msg.length →
      (∀ it ∈ s.qHigh, it.1 = Priority.HIGH.value) →
      (∀ it ∈ s.qHigh, it.2.message_id ≠ gen 0) →
      (check_pending_acks now gen tf s).pending_acks = s.pending_acks ∧
      (check_pending_acks now gen tf s).retransmissions =
        s.retransmissions + 1 ∧
      (check_pending_acks now gen tf s).packet_loss = s.packet_loss) ∧
    (∀ (s : TxState) (mid : String) (ts now tf : ℚ) (gen : Nat → String)
      (msg : List Nat) (rest : List (String × ℚ)) (p : Packet),
      s.pending_acks = (mid, ts) :: rest →
      now - ts > ACK_TIMEOUT →
      dictFind s.message_buffer mid = some msg →
      msg ≠ [] → msg.length ≤ 210 →
      s.qHigh = [(1, p)] → p.message_id ≠ gen 0 →
      (check_pending_acks now gen tf s).pending_acks = s.pending_acks ∧
      (check_pending_acks now gen tf s).retransmissions =
        s.retransmissions + 1 ∧
      (check_pending_acks now gen tf s).packet_loss = s.packet_loss) := by
  refine ⟨?_, ?_, ?_⟩
  · exact fun s mid ts now tf gen msg hp hto hbuf hne hlen hq =>
      sweep_single s mid ts now tf gen msg hp hto hbuf hne hlen hq
  · intro s mid ts now tf gen msg rest hp hto hbuf hlen hkeys hfresh
    exact sweep_abort s mid ts now tf gen msg rest hp hto hbuf
      (send_oversize_flag _ _ _ _ _
        (fun it hmem => hkeys it hmem)
        (fun it hmem => hfresh it hmem) hlen)
  · intro s mid ts now tf gen msg rest p hp hto hbuf hne hlen hq hx
    exact sweep_abort s mid ts now tf gen msg rest hp hto hbuf
      (send_small_on_busy _ (gen 0) msg tf p hne hlen hq hx)

/-- The sweep scenario whose buffered message needs two fragments. -/
def oversizeSweep : TxState :=
  { freshTx with
      pending_acks := [("m0", 0)]
      message_buffer := [("m0", List.replicate 211 0)] }

/-- A stale HIGH-queue frame of another message. -/
def staleFrame : Packet :=
  { message_id := "old"
    fragment_id := 0
    total_fragments := 1
    priority := Priority.MEDIUM
    payload := [9]
    crc := crc32 [9]
    rssi := 0
    snr := 0
    timestamp := 0 }

/-- The sweep scenario whose HIGH queue is already occupied. -/
def busySweep : TxState :=
  { freshTx with
      pending_acks := [("m0", 0)]
      message_buffer := [("m0", [7])]
      qHigh := [(1, staleFrame)] }

/-- Witness for `sweep_resend_policy`: the completing branch at the
1-byte scenario, the aborting branch at the 211-byte scenario, and the
aborting branch at the occupied-HIGH-queue scenario. -/
theorem sweep_resend_policy_witness :
    (check_pending_acks 3 genR 10 sweepState =
      { qHigh := [(1,
          { message_id := genR 0
            fragment_id := 0
            total_fragments := 1
            priority := Priority.MEDIUM
            payload := [7]
            crc := crc32 [7]
            rssi := 0
            snr := 0
            timestamp := 10 })]
        qMed := sweepState.qMed
        qLow := sweepState.qLow
        message_buffer := dictInsert sweepState.message_buffer (genR 0) [7]
        pending_acks := []
        retransmissions := sweepState.retransmissions + 1
        packet_loss := sweepState.packet_loss }) ∧
    ((check_pending_acks 3 genR 10 oversizeSweep).pending_acks =
        oversizeSweep.pending_acks ∧
      (check_pending_acks 3 genR 10 oversizeSweep).retransmissions =
        oversizeSweep.retransmissions + 1 ∧
      (check_pending_acks 3 genR 10 oversizeSweep).packet_loss =
        oversizeSweep.packet_loss) ∧
    ((check_pending_acks 3 genR 10 busySweep).pending_acks =
        busySweep.pending_acks ∧
      (check_pending_acks 3 genR 10 busySweep).retransmissions =
        busySweep.retransmissions + 1 ∧
      (check_pending_acks 3 genR 10 busySweep).packet_loss =
        busySweep.packet_loss) :=
  ⟨sweep_resend_policy.1 sweepState "m0" 0 3 10 genR [7] rfl
      (by norm_num [ACK_TIMEOUT]) rfl (by decide) (by decide) rfl,
    sweep_resend_policy.2.1 oversizeSweep "m0" 0 3 10 genR
      (List.replicate 211 0) [] rfl (by norm_num [ACK_TIMEOUT]) rfl
      (by rw [List.length_replicate]; omega)
      (fun it hmem => absurd hmem (List.not_mem_nil it))
      (fun it hmem => absurd hmem (List.not_mem_nil it)),
    sweep_resend_policy.2.2 busySweep "m0" 0 3 10 genR [7] [] staleFrame
      rfl (by norm_num [ACK_TIMEOUT]) rfl (by decide) (by decide) rfl
      (by decide)⟩

/-! ## Claim C8 — DATA dispatch -/

/-- A concrete envelope addressed through this node toward `"C"`. -/
def relayMsg : DataMsg :=
  { source := "S", destination := "C", next_hop := "B", payload := [1, 2] }

/-- C8 counterexample.  A relayed envelope with a routing entry present
(`next_hop = self`, destination routed via `"G"`) whose re-serialized
wire encoding is 211 bytes: the nested `lora.send_message` raises on the
second fragment's put, the exception escapes `_handle_data` before line
342, and `messages_forwarded` is *not* incremented — refuting the claimed
unconditional "re-queued … and messages_forwarded incremented by exactly
one". -/
theorem forward_counter_refuted :
    relayMsg.destination ≠ "B" ∧ relayMsg.next_hop = "B" ∧
    dictFind [("C", "G")] relayMsg.destination = some "G" ∧
    (handle_data "B" [("C", "G")] freshTx relayMsg
      (List.replicate 211 0) "x" 0).1 = DataAction.errored ∧
    (handle_data "B" [("C", "G")] freshTx relayMsg
      (List.replicate 211 0) "x" 0).2.2 = 0 := by
  have hq : freshTx.queue Priority.MEDIUM = [] := rfl
  have hnone : (send_message freshTx "x" (List.replicate 211 0)
      Priority.MEDIUM 0).2 = none :=
    send_oversize_flag freshTx "x" _ Priority.MEDIUM 0
      (fun it hmem => absurd (hq ▸ hmem) (List.not_mem_nil it))
      (fun it hmem => absurd (hq ▸ hmem) (List.not_mem_nil it))
      (by rw [List.length_replicate]; omega)
  have heval : handle_data "B" [("C", "G")] freshTx relayMsg
      (List.replicate 211 0) "x" 0 =
      (DataAction.errored,
        (send_message freshTx "x" (List.replicate 211 0)
          Priority.MEDIUM 0).1, 0) := by
    unfold handle_data
    rw [if_neg (by decide : ¬ relayMsg.destination = "B"),
      if_pos (by decide : relayMsg.next_hop = "B")]
    split
    · rename_i nh hnh
      simp only [hnone]
    · rename_i hn
      rw [show dictFind [("C", "G")] relayMsg.destination =
        some "G" from rfl] at hn
      exact absurd hn (by simp)
  exact ⟨by decide, rfl, rfl, by rw [heval], by rw [heval]⟩

/-- C8 (corrected).  `_handle_data` dispatch: a DATA envelope destined
for the local node is delivered upward and not forwarded; an envelope
whose `next_hop` is the local node and whose destination has a routing
entry is handed to `lora.send_message` with `next_hop` rewritten, and
`messages_forwarded` is bumped by exactly one *iff that send returns* —
when the send raises (oversize wire encoding, or an occupied
equal-priority heap slot) the exception propagates, the counter is not
bumped, and the link state keeps the partial mutations; a missing entry
drops with `NoRoute`; any other envelope is ignored. -/
theorem data_dispatch (selfId : String) (table : List (String × String))
    (tx : TxState) (m : DataMsg) (enc : List Nat) (mid : String)
    (ts : ℚ) :
    (m.destination = selfId →
      handle_data selfId table tx m enc mid ts =
        (DataAction.deliver m.source m.payload, tx, 0)) ∧
    (m.destination ≠ selfId → m.next_hop = selfId →
      ∀ nh, dictFind table m.destination = some nh →
        ((send_message tx mid enc Priority.MEDIUM ts).2 ≠ none →
          handle_data selfId table tx m enc mid ts =
            (DataAction.forward { m with next_hop := nh },
              (send_message tx mid enc Priority.MEDIUM ts).1, 1)) ∧
        ((send_message tx mid enc Priority.MEDIUM ts).2 = none →
          handle_data selfId table tx m enc mid ts =
            (DataAction.errored,
              (send_message tx mid enc Priority.MEDIUM ts).1, 0))) ∧
    (m.destination ≠ selfId → m.next_hop = selfId →
      dictFind table m.destination = none →
        handle_data selfId table tx m enc mid ts =
          (DataAction.noRoute, tx, 0)) ∧
    (m.destination ≠ selfId → m.next_hop ≠ selfId →
      handle_data selfId table tx m enc mid ts =
        (DataAction.ignore, tx, 0)) := by
  refine ⟨fun h1 => ?_, fun h1 h2 nh h3 => ⟨fun h4 => ?_, fun h4 => ?_⟩,
    fun h1 h2 h3 => ?_, fun h1 h2 => ?_⟩
  · simp [handle_data, h1]
  · rcases hx : (send_message tx mid enc Priority.MEDIUM ts).2 with _ | y
    · exact absurd hx h4
    · simp [handle_data, h1, h2, h3, hx]
  · simp [handle_data, h1, h2, h3, h4]
  · simp [handle_data, h1, h2, h3]
  · simp [handle_data, h1, h2]

/-- Witness for `data_dispatch`: a completed forward at a concrete
envelope whose 1-byte encoding sends in one fragment. -/
theorem data_dispatch_witness :
    dictFind [("C", "G")] relayMsg.destination = some "G" ∧
    (send_message freshTx "x" [7] Priority.MEDIUM 0).2 ≠ none ∧
    handle_data "B" [("C", "G")] freshTx relayMsg [7] "x" 0 =
      (DataAction.forward { relayMsg with next_hop := "G" },
        (send_message freshTx "x" [7] Priority.MEDIUM 0).1, 1) := by
  have hsome : (send_message freshTx "x" [7] Priority.MEDIUM 0).2 =
      some "x" := rfl
  refine ⟨rfl, by rw [hsome]; simp, ?_⟩
  exact ((data_dispatch "B" [("C", "G")] freshTx relayMsg [7] "x" 0).2.1
    (by decide) rfl "G" rfl).1 (by rw [hsome]; simp)

/-! ## Claim C4 — ROUTE_UPDATE handling -/

/-- Two nodes `A`, `X` joined by one edge: the local view when the update
arrives. -/
def cexGraph : Graph := { nodes := ["A", "X"], edges := [("A", "X", 1)] }

/-- C4 counterexample.  Node `A` knows `X` (adjacent, distance 1 < 5) and
receives from `X` the advertised route `("D", "Z")`.  The handler sets
`routing_table["D"] = "Z"` — the *advertised next hop* — not `"X"` (the
advertiser) as the claim states; there is also no tie-breaking: the write
is unconditional. -/
theorem route_update_hop_refuted :
    dictFind (handle_route_update "A" ["A", "X"] cexGraph
        [("X", "X")] "X" [("D", "Z")]) "D" = some "Z" ∧
    ("Z" : String) ≠ "X" := by
  refine ⟨by decide, by decide⟩

/-- C4 (corrected).  For a ROUTE_UPDATE received from a known node `X`
and an advertised pair `(dest, nh)` with `dest ≠ self`, if the unweighted
shortest-path distance from self to `X` is `< MAX_HOPS` (that is, at most
`MAX_HOPS − 1` edges) the handler sets `routing_table[dest]` to `nh`, the
next hop advertised by `X` — not to `X` itself — overwriting any existing
entry unconditionally, with no tie-breaking on first-hop edge weight. -/
theorem route_update_sets_advertised (selfId : String)
    (nodeKeys : List String) (g : Graph)
    (table : List (String × String)) (X dest nh : String) (d : Nat)
    (hX : X ∈ nodeKeys) (hdest : dest ≠ selfId)
    (hdist : dist_unweighted g selfId X = some d) (hd : d < MAX_HOPS) :
    handle_route_update selfId nodeKeys g table X [(dest, nh)] =
      dictInsert table dest nh := by
  unfold handle_route_update
  rw [if_pos hX]
  simp [hdist, hdest, hd]

/-- Witness for `route_update_sets_advertised` at the two-node graph. -/
theorem route_update_sets_advertised_witness :
    ("X" : String) ∈ ["A", "X"] ∧
    dist_unweighted cexGraph "A" "X" = some 1 ∧
    handle_route_update "A" ["A", "X"] cexGraph [("X", "X")] "X"
        [("D", "Z")] = dictInsert [("X", "X")] "D" "Z" :=
  ⟨by decide, by decide,
    route_update_sets_advertised "A" ["A", "X"] cexGraph [("X", "X")]
      "X" "D" "Z" 1 (by decide) (by decide) (by decide) (by decide)⟩

/-! ## Claim C5 — routing-table invariant -/

/-- C5 counterexample.  Starting from the table built by the rebuild on
the two-node graph (a state the code reaches), handling the ROUTE_UPDATE
from `X` advertising `("D", "Z")` inserts the entry `("D", "Z")`: its
value `"Z"` is not in the neighbour table `["A", "X"]`, and its key `"D"`
has no path at all from `"A"` in the graph (so no shortest-path bound
holds) — the claimed invariant is violated after a route-update
operation. -/
theorem routing_invariant_refuted :
    ("D", "Z") ∈ handle_route_update "A" ["A", "X"] cexGraph
        (update_routing_table "A" ["A", "X"] cexGraph) "X"
        [("D", "Z")] ∧
    ("Z" : String) ∉ ["A", "X"] ∧
    dist_unweighted cexGraph "A" "D" = none := by
  refine ⟨by decide, by decide, by decide⟩

/-- The edge relation is symmetric (the matcher checks both
orientations). -/
theorem Graph.adjW_comm (g : Graph) (u v : String) :
    g.adjW u v = g.adjW v u := by
  unfold Graph.adjW
  have hfun : (fun e : String × String × ℚ =>
      decide ((e.1 = u ∧ e.2.1 = v) ∨ (e.1 = v ∧ e.2.1 = u))) =
      (fun e : String × String × ℚ =>
      decide ((e.1 = v ∧ e.2.1 = u) ∨ (e.1 = u ∧ e.2.1 = v))) :=
    funext fun e => decide_eq_decide.mpr (by tauto)
  rw [hfun]

theorem Graph.adj_symm (g : Graph) {u v : String} (h : g.adj u v) :
    g.adj v u := by
  unfold Graph.adj at h ⊢
  rw [Graph.adjW_comm]
  exact h

/-- Neighbours are adjacent. -/
theorem Graph.adj_of_mem_nbrs (g : Graph) {u v : String}
    (h : v ∈ g.nbrs u) : g.adj u v := by
  unfold Graph.nbrs at h
  rcases List.mem_filterMap.mp h with ⟨e, hmem, he⟩
  unfold Graph.adj Graph.adjW
  rw [Option.isSome_map', List.find?_isSome]
  by_cases h1 : e.1 = u
  · rw [if_pos h1] at he
    refine ⟨e, hmem, ?_⟩
    simp only [decide_eq_true_eq]
    exact Or.inl ⟨h1, by injection he⟩
  · rw [if_neg h1] at he
    by_cases h2 : e.2.1 = u
    · rw [if_pos h2] at he
      refine ⟨e, hmem, ?_⟩
      simp only [decide_eq_true_eq]
      exact Or.inr ⟨by injection he, h2⟩
    · rw [if_neg h2] at he
      exact absurd he (by simp)

/-- In a well-formed graph both endpoints of an edge are nodes. -/
theorem Graph.adj_mem_nodes (g : Graph) (hwf : g.WF) {u v : String}
    (h : g.adj u v) : u ∈ g.nodes ∧ v ∈ g.nodes := by
  unfold Graph.adj Graph.adjW at h
  rw [Option.isSome_map', List.find?_isSome] at h
  rcases h with ⟨e, hmem, he⟩
  rw [decide_eq_true_eq] at he
  rcases he with ⟨h1, h2⟩ | ⟨h1, h2⟩
  · exact ⟨h1 ▸ (hwf e hmem).1, h2 ▸ (hwf e hmem).2⟩
  · exact ⟨h2 ▸ (hwf e hmem).2, h1 ▸ (hwf e hmem).1⟩

/-- Every reversed path produced by the enumeration is non-empty, ends at
the source, and walks along edges. -/
theorem pathsN_valid (g : Graph) (src : String) :
    ∀ n p, p ∈ pathsN g src n →
      p ≠ [] ∧ p.getLast? = some src ∧ List.Chain' g.adj p := by
  intro n
  induction n with
  | zero =>
    intro p hp
    rw [pathsN] at hp
    rcases List.mem_singleton.mp hp with rfl
    exact ⟨by simp, rfl, List.chain'_singleton src⟩
  | succ n ih =>
    intro p hp
    rw [pathsN] at hp
    rcases List.mem_flatMap.mp hp with ⟨q, hq, hpq⟩
    obtain ⟨hqne, hqlast, hqchain⟩ := ih q hq
    rcases q with _ | ⟨u, rest⟩
    · exact absurd rfl hqne
    · unfold stepPaths at hpq
      rcases List.mem_map.mp hpq with ⟨v, hv, rfl⟩
      have hvnbr : v ∈ g.nbrs u := (List.mem_filter.mp hv).1
      refine ⟨by simp, ?_, ?_⟩
      · rw [List.getLast?_cons_cons]
        exact hqlast
      · rw [List.chain'_cons]
        exact ⟨Graph.adj_symm g (Graph.adj_of_mem_nbrs g hvnbr), hqchain⟩

/-- min-selection returns an element of its input. -/
theorem pickMin_mem (g : Graph) (l : List (List String))
    (p : List String) (h : pickMin g l = some p) : p ∈ l := by
  rcases l with _ | ⟨c, cs⟩
  · exact absurd h (by simp [pickMin])
  · rw [pickMin, Option.some_inj] at h
    subst h
    have key : ∀ (cs : List (List String)) (c : List String),
        cs.foldl (fun best q =>
          if pathWeight g q < pathWeight g best then q else best) c ∈
          c :: cs := by
      intro cs
      induction cs with
      | nil => intro c; simp
      | cons d ds ihd =>
        intro c
        rw [List.foldl_cons]
        rcases List.mem_cons.mp
            (ihd (if pathWeight g d < pathWeight g c then d else c)) with
          heq | hmem
        · rw [heq]
          split
          · exact List.mem_cons_of_mem c (List.mem_cons_self d ds)
          · exact List.mem_cons_self c (d :: ds)
        · exact List.mem_cons_of_mem c (List.mem_cons_of_mem d hmem)
    exact key cs c

/-- Candidate paths (reversed) run from `dst` back to `src` along edges. -/
theorem candidates_valid (g : Graph) (src dst : String)
    (p : List String) (h : p ∈ candidates g src dst) :
    p.head? = some dst ∧ p.getLast? = some src ∧ List.Chain' g.adj p := by
  unfold candidates at h
  have hmem := (List.mem_filter.mp h).1
  have hhead : p.head? = some dst :=
    of_decide_eq_true (List.mem_filter.mp h).2
  rcases List.mem_flatMap.mp hmem with ⟨n, _, hp⟩
  obtain ⟨_, hlast, hchain⟩ := pathsN_valid g src n p hp
  exact ⟨hhead, hlast, hchain⟩

/-- `shortest_path` returns a genuine path `[src, …, dst]` of the
graph. -/
theorem shortest_path_valid (g : Graph) (src dst : String)
    (p : List String) (h : shortest_path g src dst = some p) :
    p.head? = some src ∧ p.getLast? = some dst ∧ List.Chain' g.adj p := by
  unfold shortest_path at h
  rcases Option.map_eq_some'.mp h with ⟨q, hq, rfl⟩
  obtain ⟨hhead, hlast, hchain⟩ :=
    candidates_valid g src dst q (pickMin_mem g _ q hq)
  refine ⟨?_, ?_, ?_⟩
  · rw [List.head?_reverse]
    exact hlast
  · rw [List.getLast?_reverse]
    exact hhead
  · rw [List.chain'_reverse]
    exact List.Chain'.imp (fun a b hab => Graph.adj_symm g hab) hchain

/-- Unpacking a successful `routeFor`: a shortest path of at most
`MAX_HOPS` vertices whose second vertex is the chosen next hop. -/
theorem routeFor_eq_some (g : Graph) (selfId dest nh : String)
    (h : routeFor g selfId dest = some nh) :
    ∃ p, shortest_path g selfId dest = some p ∧ p.length ≤ MAX_HOPS ∧
      p.get? 1 = some nh := by
  unfold routeFor at h
  split at h
  · rename_i p hsp
    by_cases hlen : p.length ≤ MAX_HOPS
    · rw [if_pos hlen] at h
      exact ⟨p, hsp, hlen, h⟩
    · rw [if_neg hlen] at h
      exact absurd h (by simp)
  · exact absurd h (by simp)

/-- C5 (corrected).  The invariant holds for the full rebuild
`_update_routing_table` (through which node registration and node removal
also pass): for a well-formed graph whose node set is contained in the
neighbour-table keys, every entry `(d, nh)` of the rebuilt table has
`d ≠ self`, a next hop `nh` present in the neighbour table, and a genuine
graph path from self to `d` of at most `MAX_HOPS` vertices (hence at most
`MAX_HOPS − 1 < MAX_HOPS` hops).  `_handle_route_update`, by contrast,
violates the neighbour-membership and hop-bound parts (see the
counterexample), so the claim is restricted to the rebuild. -/
theorem rebuild_invariant (g : Graph) (selfId : String)
    (nbrs : List String) (hwf : g.WF)
    (hsub : ∀ x ∈ g.nodes, x ∈ nbrs) :
    ∀ d nh, (d, nh) ∈ update_routing_table selfId nbrs g →
      d ≠ selfId ∧ nh ∈ nbrs ∧
      ∃ p : List String, p.head? = some selfId ∧ p.getLast? = some d ∧
        List.Chain' g.adj p ∧ p.length ≤ MAX_HOPS := by
  intro d nh hmem
  unfold update_routing_table at hmem
  rcases List.mem_filterMap.mp hmem with ⟨dest, _, hdest⟩
  by_cases hds : dest = selfId
  · rw [if_pos hds] at hdest
    exact absurd hdest (by simp)
  · rw [if_neg hds] at hdest
    rcases Option.map_eq_some'.mp hdest with ⟨nh', hroute, heq⟩
    have h1 : dest = d := congrArg Prod.fst heq
    have h2 : nh' = nh := congrArg Prod.snd heq
    subst h1
    subst h2
    obtain ⟨p, hsp, hlen, hget⟩ :=
      routeFor_eq_some g selfId dest nh' hroute
    obtain ⟨hhead, hlast, hchain⟩ :=
      shortest_path_valid g selfId dest p hsp
    rcases p with _ | ⟨a, p'⟩
    · exact absurd hget (by simp)
    · rcases p' with _ | ⟨b, p''⟩
      · exact absurd hget (by simp)
      · have hab : a = selfId := Option.some.inj hhead
        have hb : b = nh' := Option.some.inj hget
        have hadj : g.adj a b := (List.chain'_cons.mp hchain).1
        have hbnodes : b ∈ g.nodes :=
          (Graph.adj_mem_nodes g hwf hadj).2
        refine ⟨hds, ?_, ⟨a :: b :: p'', ?_, ?_, hchain, hlen⟩⟩
        · rw [← hb]
          exact hsub b hbnodes
        · rw [hab]
          rfl
        · exact hlast

/-- Witness for `rebuild_invariant` on the two-node graph `A — B`. -/
def witGraph : Graph := { nodes := ["A", "B"], edges := [("A", "B", 1)] }

/-- Witness for `rebuild_invariant`: the rebuilt table on `A — B` is
`[("B", "B")]` and the theorem applies to its entry. -/
theorem rebuild_invariant_witness :
    witGraph.WF ∧
    update_routing_table "A" ["A", "B"] witGraph = [("B", "B")] ∧
    (("B" : String) ≠ "A" ∧ "B" ∈ ["A", "B"] ∧
      ∃ p : List String, p.head? = some "A" ∧ p.getLast? = some "B" ∧
        List.Chain' witGraph.adj p ∧ p.length ≤ MAX_HOPS) :=
  have hwf : witGraph.WF := by
    intro e he
    rcases List.mem_singleton.mp he with rfl
    exact ⟨by decide, by decide⟩
  ⟨hwf, by decide,
    rebuild_invariant witGraph "A" ["A", "B"] hwf
      (by decide) "B" "B" (by decide)⟩

/-! ## Claim C1 — round-trip identity -/

/-- The `i`-th fragment built by `_fragment_message`. -/
def mkFrag (mid : String) (data : List Nat) (ts : ℚ) (i : Nat) : Packet :=
  { message_id := mid
    fragment_id := i
    total_fragments := (data.length + PAYLOAD_SIZE - 1) / PAYLOAD_SIZE
    priority := Priority.MEDIUM
    payload := (data.drop (i * PAYLOAD_SIZE)).take PAYLOAD_SIZE
    crc := crc32 ((data.drop (i * PAYLOAD_SIZE)).take PAYLOAD_SIZE)
    rssi := 0
    snr := 0
    timestamp := ts }

theorem fragment_message_eq_map (mid : String) (data : List Nat) (ts : ℚ) :
    fragment_message mid data ts =
      (List.range ((data.length + PAYLOAD_SIZE - 1) / PAYLOAD_SIZE)).map
        (mkFrag mid data ts) := rfl

theorem fragment_message_len (mid : String) (data : List Nat) (ts : ℚ) :
    (fragment_message mid data ts).length =
      (data.length + PAYLOAD_SIZE - 1) / PAYLOAD_SIZE := by
  rw [fragment_message_eq_map, List.length_map, List.length_range]

/-- Each fragment carries the shared id, a valid CRC and the common
total. -/
theorem frag_facts (mid : String) (data : List Nat) (ts : ℚ) :
    ∀ q ∈ fragment_message mid data ts,
      q.crc = crc32 q.payload ∧ q.message_id = mid ∧
      q.total_fragments = (fragment_message mid data ts).length := by
  intro q hq
  rw [fragment_message_eq_map] at hq
  rcases List.mem_map.mp hq with ⟨i, _, rfl⟩
  exact ⟨rfl, rfl, by rw [fragment_message_len]; rfl⟩

/-- The fragment ids are exactly `0 .. total-1`. -/
theorem frag_fids (mid : String) (data : List Nat) (ts : ℚ) :
    (fragment_message mid data ts).map Packet.fragment_id =
      List.range ((data.length + PAYLOAD_SIZE - 1) / PAYLOAD_SIZE) := by
  rw [fragment_message_eq_map, List.map_map]
  have : Packet.fragment_id ∘ mkFrag mid data ts = fun i => i := rfl
  rw [this]
  exact List.map_id _

theorem mkFrag_mem (mid : String) (data : List Nat) (ts : ℚ) (i : Nat)
    (hi : i < (data.length + PAYLOAD_SIZE - 1) / PAYLOAD_SIZE) :
    mkFrag mid data ts i ∈ fragment_message mid data ts := by
  rw [fragment_message_eq_map]
  exact List.mem_map_of_mem _ (List.mem_range.mpr hi)

/-- Concatenating the first `n` chunks of 210 bytes reproduces the first
`n * 210` bytes. -/
theorem chunk_join (data : List Nat) :
    ∀ n, ((List.range n).map
      (fun i => (data.drop (i * PAYLOAD_SIZE)).take PAYLOAD_SIZE)).flatten =
      data.take (n * PAYLOAD_SIZE) := by
  intro n
  induction n with
  | zero => simp
  | succ n ih =>
    rw [List.range_succ, List.map_append, List.flatten_append,
      List.map_singleton, List.flatten_singleton, ih]
    rw [show (n + 1) * PAYLOAD_SIZE = n * PAYLOAD_SIZE + PAYLOAD_SIZE by ring]
    rw [List.take_add]

/-- Ceiling division covers the whole payload. -/
theorem len_le_total_mul (data : List Nat) :
    data.length ≤
      ((data.length + PAYLOAD_SIZE - 1) / PAYLOAD_SIZE) * PAYLOAD_SIZE := by
  have hps : PAYLOAD_SIZE = 210 := rfl
  rw [hps]
  have hdm := Nat.div_add_mod (data.length + 210 - 1) 210
  have hlt : (data.length + 210 - 1) % 210 < 210 :=
    Nat.mod_lt _ (by norm_num)
  omega

/-- The algebraic half of the round trip: joining the fragment payloads in
ascending fragment index reproduces the submitted payload, for payloads of
every size (including the empty one). -/
theorem fragments_join (mid : String) (data : List Nat) (ts : ℚ) :
    ((fragment_message mid data ts).map Packet.payload).flatten = data := by
  rw [fragment_message_eq_map, List.map_map]
  have hcomp : Packet.payload ∘ mkFrag mid data ts =
      fun i => (data.drop (i * PAYLOAD_SIZE)).take PAYLOAD_SIZE := rfl
  rw [hcomp, chunk_join]
  exact List.take_of_length_le (len_le_total_mul data)

/-- Recording signal samples touches only the rssi/snr buffers. -/
theorem record_signal_core (s : RxState) (p : Packet) :
    (record_signal s p).pending_acks = s.pending_acks ∧
    (record_signal s p).received_fragments = s.received_fragments ∧
    (record_signal s p).receive_queue = s.receive_queue ∧
    (record_signal s p).packet_loss = s.packet_loss := by
  by_cases h : (s.rssiBuf ++ [p.rssi]).length > 100
  · simp only [record_signal]
    rw [if_pos h]
    exact ⟨rfl, rfl, rfl, rfl⟩
  · simp only [record_signal]
    rw [if_neg h]
    exact ⟨rfl, rfl, rfl, rfl⟩

/-- If every index below `n` is bound, the comprehension collects the
bindings in ascending index order. -/
theorem indexPackets_some (frags : List (Nat × Packet)) (g : Nat → Packet) :
    ∀ n, (∀ i, i < n → dictFind frags i = some (g i)) →
      indexPackets frags n = some ((List.range n).map g) := by
  intro n
  induction n with
  | zero => intro _; rfl
  | succ n ih =>
    intro h
    rw [indexPackets, ih (fun i hi => h i (Nat.lt_succ_of_lt hi)),
      h n (Nat.lt_succ_self n), List.range_succ, List.map_append]
    rfl

/-- A missing index below `n` makes the comprehension raise. -/
theorem indexPackets_none (frags : List (Nat × Packet)) :
    ∀ n i, i < n → dictFind frags i = none →
      indexPackets frags n = none := by
  intro n
  induction n with
  | zero => intro i hi _; exact absurd hi (by omega)
  | succ n ih =>
    intro i hi hnone
    rw [indexPackets]
    by_cases hin : i < n
    · rw [ih i hin hnone]
    · have : i = n := by omega
      subst this
      rw [hnone]
      cases indexPackets frags i <;> rfl

/-- Inserting preserves key uniqueness. -/
theorem dictInsert_keys_nodup {α β : Type} [DecidableEq α]
    (l : List (α × β)) (k : α) (v : β)
    (h : (l.map Prod.fst).Nodup) :
    ((dictInsert l k v).map Prod.fst).Nodup := by
  rw [dictInsert_keys]
  split
  · exact h
  · rename_i hfind
    have hk : k ∉ l.map Prod.fst := fun hm =>
      hfind ((dictFind_isSome_iff l k).mpr hm)
    simp [List.nodup_append, h, hk]

/-- `_handle_packet` on a CRC-valid frame that is not an implicit ACK:
record the signal samples, store the fragment and run the completeness
check. -/
theorem handle_packet_store (s : RxState) (p : Packet)
    (hcrc : crc32 p.payload = p.crc)
    (hpend : dictFind s.pending_acks p.message_id = none) :
    handle_packet s p =
      (if (dictInsert ((dictFind s.received_fragments p.message_id).getD [])
            p.fragment_id p).length = p.total_fragments then
        reassemble_message
          { record_signal s p with
              received_fragments :=
                dictInsert s.received_fragments p.message_id
                  (dictInsert
                    ((dictFind s.received_fragments p.message_id).getD [])
                    p.fragment_id p) } p.message_id
      else
        { record_signal s p with
            received_fragments :=
              dictInsert s.received_fragments p.message_id
                (dictInsert
                  ((dictFind s.received_fragments p.message_id).getD [])
                  p.fragment_id p) }) := by
  have hsig := record_signal_core s p
  unfold handle_packet
  rw [if_neg (not_not_intro hcrc)]
  simp only [hsig.1, hsig.2.1, hpend, Option.isSome_none]
  rw [if_neg (by simp)]

/-- Evaluating `_reassemble_message` when the buffer is complete. -/
theorem reassemble_eval (s : RxState) (mid : String)
    (m' : List (Nat × Packet)) (pkts : List Packet)
    (hfind : dictFind s.received_fragments mid = some m')
    (hidx : indexPackets m' m'.length = some pkts) :
    reassemble_message s mid =
      { s with
          receive_queue :=
            s.receive_queue ++ [(pkts.map Packet.payload).flatten]
          received_fragments := dictErase s.received_fragments mid } := by
  unfold reassemble_message
  split
  · rename_i hnone
    rw [hfind] at hnone
    exact absurd hnone (by simp)
  · rename_i frags hsome
    rw [hfind] at hsome
    have hf : frags = m' := by injection hsome with h; exact h.symm
    subst hf
    split
    · rename_i hnone
      rw [hidx] at hnone
      exact absurd hnone (by simp)
    · rename_i pkts' hsome2
      rw [hidx] at hsome2
      have hp : pkts' = pkts := by injection hsome2 with h; exact h.symm
      subst hp
      rfl

/-- Evaluating `_reassemble_message` when an index is missing: the
`KeyError` is caught and the state — including the buffer — is left
unchanged. -/
theorem reassemble_stuck (s : RxState) (mid : String)
    (m' : List (Nat × Packet))
    (hfind : dictFind s.received_fragments mid = some m')
    (hidx : indexPackets m' m'.length = none) :
    reassemble_message s mid = s := by
  unfold reassemble_message
  split
  · rfl
  · rename_i frags hsome
    rw [hfind] at hsome
    have hf : frags = m' := by injection hsome with h; exact h.symm
    subst hf
    split
    · rfl
    · rename_i pkts' hsome2
      rw [hidx] at hsome2
      exact absurd hsome2 (by simp)

/-- The inner-dict binding stored for a packet. -/
def fnPair (p : Packet) : Nat × Packet := (p.fragment_id, p)

/-- Feeding any remaining permutation of the fragments into a receiver
whose buffer already holds the fragments fed so far ends with exactly the
original payload delivered upward. -/
theorem feed_go (mid : String) (data : List Nat) (ts : ℚ) :
    ∀ (l done : List Packet) (s : RxState),
      (done ++ l).Perm (fragment_message mid data ts) →
      l ≠ [] →
      s.pending_acks = [] →
      s.receive_queue = [] →
      s.received_fragments =
        (if done = [] then [] else [(mid, done.map fnPair)]) →
      (feed s l).receive_queue = [data] := by
  intro l
  induction l with
  | nil =>
    intro done s _ hne _ _ _
    exact absurd rfl hne
  | cons p l' ih =>
    intro done s hperm _ hpend hrq hrcv
    have hpmem : p ∈ fragment_message mid data ts :=
      hperm.subset (by simp)
    obtain ⟨hcrc, hmid, htot⟩ := frag_facts mid data ts p hpmem
    have hsig := record_signal_core s p
    have hstore := handle_packet_store s p hcrc.symm
      (by rw [hpend]; rfl)
    have hm : (dictFind s.received_fragments p.message_id).getD [] =
        done.map fnPair := by
      rw [hrcv, hmid]
      by_cases hd : done = []
      · rw [if_pos hd, hd]
        rfl
      · rw [if_neg hd]
        simp [dictFind]
    have hfidnodup : ((done ++ p :: l').map Packet.fragment_id).Nodup := by
      have hpm := hperm.map Packet.fragment_id
      rw [frag_fids] at hpm
      exact hpm.nodup_iff.mpr (List.nodup_range _)
    have hfid_not : dictFind (done.map fnPair) p.fragment_id = none := by
      rw [← Option.not_isSome_iff_eq_none, Bool.not_eq_true,
        ← Bool.not_eq_true]
      intro hmem
      rw [dictFind_isSome_iff, List.map_map] at hmem
      have hfst : (Prod.fst ∘ fnPair) = Packet.fragment_id := rfl
      rw [hfst] at hmem
      rw [List.map_append] at hfidnodup
      exact (List.nodup_append.mp hfidnodup).2.2 hmem (by simp)
    have hm' : dictInsert (done.map fnPair) p.fragment_id p =
        (done ++ [p]).map fnPair := by
      rw [dictInsert_of_notfound _ _ _ hfid_not, List.map_append]
      rfl
    have houter : dictInsert s.received_fragments p.message_id
        ((done ++ [p]).map fnPair) =
        [(mid, (done ++ [p]).map fnPair)] := by
      rw [hrcv, hmid]
      by_cases hd : done = []
      · rw [if_pos hd]
        rfl
      · rw [if_neg hd]
        simp [dictInsert]
    have hlen_eq := hperm.length_eq
    rw [List.length_append, List.length_cons] at hlen_eq
    have hfeed : feed s (p :: l') = feed (handle_packet s p) l' := rfl
    rw [hfeed, hstore, hm, hm', houter]
    rcases l' with _ | ⟨q, rest⟩
    · -- final fragment: completeness fires and reassembly delivers
      have hcond : ((done ++ [p]).map fnPair).length =
          p.total_fragments := by
        rw [htot]
        simp only [List.length_map, List.length_append, List.length_cons,
          List.length_nil] at hlen_eq ⊢
        omega
      rw [if_pos hcond]
      have hmlen : ((done ++ [p]).map fnPair).length =
          (data.length + PAYLOAD_SIZE - 1) / PAYLOAD_SIZE := by
        have hfl := fragment_message_len mid data ts
        simp only [List.length_map, List.length_append, List.length_cons,
          List.length_nil] at hlen_eq ⊢
        omega
      have hkeysnodup :
          (((done ++ [p]).map fnPair).map Prod.fst).Nodup := by
        rw [List.map_map]
        have hfst : (Prod.fst ∘ fnPair) = Packet.fragment_id := rfl
        rw [hfst]
        exact hfidnodup
      have hlook : ∀ i, i < ((done ++ [p]).map fnPair).length →
          dictFind ((done ++ [p]).map fnPair) i =
            some (mkFrag mid data ts i) := by
        intro i hi
        rw [hmlen] at hi
        have hfmem : mkFrag mid data ts i ∈ fragment_message mid data ts :=
          mkFrag_mem mid data ts i hi
        have hlmem : mkFrag mid data ts i ∈ done ++ [p] :=
          hperm.symm.subset hfmem
        exact dictFind_eq_some_of_mem _ _ _ hkeysnodup
          (List.mem_map_of_mem fnPair hlmem)
      have hidx := indexPackets_some ((done ++ [p]).map fnPair)
        (mkFrag mid data ts) ((done ++ [p]).map fnPair).length hlook
      have hfind : dictFind
          ([(mid, (done ++ [p]).map fnPair)] :
            List (String × List (Nat × Packet))) mid =
          some ((done ++ [p]).map fnPair) := by
        simp [dictFind]
      rw [hmid]
      rw [reassemble_eval _ mid ((done ++ [p]).map fnPair) _ hfind hidx]
      show ((record_signal s p).receive_queue ++ _) = [data]
      rw [hsig.2.2.1, hrq]
      rw [hmlen, ← fragment_message_eq_map, fragments_join]
      rfl
    · -- more fragments remain: completeness fails, invariant carries on
      have hcond : ¬(((done ++ [p]).map fnPair).length =
          p.total_fragments) := by
        rw [htot]
        simp only [List.length_map, List.length_append, List.length_cons,
          List.length_nil] at hlen_eq ⊢
        omega
      rw [if_neg hcond]
      refine ih (done ++ [p]) _ ?_ (by simp) ?_ ?_ ?_
      · rw [List.append_assoc]
        exact hperm
      · show (record_signal s p).pending_acks = []
        rw [hsig.1, hpend]
      · show (record_signal s p).receive_queue = []
        rw [hsig.2.2.1, hrq]
      · show [(mid, (done ++ [p]).map fnPair)] = _
        rw [if_neg (by simp)]

/-- C1 counterexample.  For the empty payload `_fragment_message`
produces zero fragments (`fragment_total = 0`), so "all fragments" are
received vacuously and yet nothing is ever reassembled or emitted upward:
the delivered list stays empty instead of containing the empty payload.
The claim's "payload of any size" therefore fails at size 0 (claim C10
describes this black hole). -/
theorem roundtrip_empty_refuted :
    fragment_message "m" [] 0 = [] ∧
    (feed freshRx (fragment_message "m" [] 0)).receive_queue = [] ∧
    ([] : List (List Nat)) ≠ [([] : List Nat)] := by
  refine ⟨rfl, rfl, by simp⟩

/-- C1 (corrected).  Round-trip identity for every *non-empty* payload:
concatenating the fragment payloads of `_fragment_message` in ascending
fragment index reproduces the submitted payload (this algebraic half
holds at every size, the empty payload included); and for every non-empty
payload, a fresh peer link engine that receives all the fragments
CRC-valid in any order emits exactly the original payload upward.  The
empty payload produces zero fragments and is never delivered
(counterexample), which is the only correction. -/
theorem roundtrip_identity (mid : String) (data : List Nat) (ts : ℚ) :
    ((fragment_message mid data ts).map Packet.payload).flatten = data ∧
    (∀ order : List Packet, data ≠ [] →
      order.Perm (fragment_message mid data ts) →
      (feed freshRx order).receive_queue = [data]) := by
  refine ⟨fragments_join mid data ts, ?_⟩
  intro order hdata hperm
  have hfragsne : fragment_message mid data ts ≠ [] := by
    rw [fragment_message_eq_map]
    have hps : PAYLOAD_SIZE = 210 := rfl
    have hpos : 0 < data.length := List.length_pos.mpr hdata
    have ht : 1 ≤ (data.length + PAYLOAD_SIZE - 1) / PAYLOAD_SIZE := by
      rw [hps]
      exact (Nat.le_div_iff_mul_le (by norm_num)).mpr (by omega)
    intro hcon
    rw [List.map_eq_nil_iff, List.range_eq_nil] at hcon
    omega
  have hordne : order ≠ [] := by
    intro hcon
    rw [hcon] at hperm
    exact hfragsne (List.Perm.eq_nil hperm.symm)
  exact feed_go mid data ts order [] freshRx hperm hordne rfl rfl rfl

end FlyingLora

namespace FlyingLora

/-- Witness for `roundtrip_identity`: a 3-byte payload delivered from its
reversed fragment stream. -/
theorem roundtrip_identity_witness :
    ([1, 2, 3] : List Nat) ≠ [] ∧
    (feed freshRx ((fragment_message "m" [1, 2, 3] 0).reverse)
      ).receive_queue = [[1, 2, 3]] :=
  ⟨by simp,
    (roundtrip_identity "m" [1, 2, 3] 0).2
      ((fragment_message "m" [1, 2, 3] 0).reverse) (by simp)
      (List.reverse_perm _)⟩

end FlyingLora

namespace FlyingLora

/-! ## Claim C9 — malformed fragment metadata -/

/-- A CRC-valid frame whose `fragment_index` (5) is ≥ its
`fragment_total` (1). -/
def oddFrag : Packet :=
  { message_id := "m"
    fragment_id := 5
    total_fragments := 1
    priority := Priority.MEDIUM
    payload := [7]
    crc := crc32 [7]
    rssi := 0
    snr := 0
    timestamp := 0 }

/-- First frame of a message that declares `fragment_total = 3`. -/
def fragTot3 : Packet :=
  { message_id := "m"
    fragment_id := 0
    total_fragments := 3
    priority := Priority.MEDIUM
    payload := [1]
    crc := crc32 [1]
    rssi := 0
    snr := 0
    timestamp := 0 }

/-- Second frame of the same message, declaring `fragment_total = 2`. -/
def fragTot2 : Packet :=
  { message_id := "m"
    fragment_id := 1
    total_fragments := 2
    priority := Priority.MEDIUM
    payload := [2]
    crc := crc32 [2]
    rssi := 0
    snr := 0
    timestamp := 0 }

/-- C9 counterexample.  (i) A CRC-valid frame with
`fragment_index = 5 ≥ fragment_total = 1` is *stored* in the reassembly
buffer — not dropped — and the failed reassembly attempt leaves the buffer
in place.  (ii) Receiving two frames of one message whose
`fragment_total` values disagree (3, then 2) does not discard the buffer
or increment `packet_loss_count`; instead the completeness check uses the
newest frame's total and delivers a truncated 2-fragment message. -/
theorem frag_metadata_refuted :
    (handle_packet freshRx oddFrag).received_fragments =
      [("m", [(5, oddFrag)])] ∧
    (handle_packet freshRx oddFrag).receive_queue = [] ∧
    (feed freshRx [fragTot3, fragTot2]).receive_queue = [[1, 2]] ∧
    (feed freshRx [fragTot3, fragTot2]).packet_loss = 0 ∧
    (feed freshRx [fragTot3, fragTot2]).received_fragments = [] :=
  ⟨rfl, rfl, rfl, rfl, rfl⟩

/-- C9 (corrected).  `_handle_packet` performs no fragment-metadata
validation.  A CRC-valid, non-ACK frame with
`fragment_index ≥ fragment_total` is stored in the reassembly buffer
(not dropped); nothing is delivered and `packet_loss_count` is untouched
— if the store makes the buffer size equal the frame's declared total,
the reassembly attempt hits a missing index, the `KeyError` is swallowed
and the buffer is retained.  A `fragment_total` disagreeing with stored
frames is likewise neither detected nor counted (see the counterexample
for the truncated delivery it can cause). -/
theorem frag_stored_not_dropped (s : RxState) (p : Packet)
    (hcrc : crc32 p.payload = p.crc)
    (hpend : dictFind s.pending_acks p.message_id = none)
    (hnodup : (((dictFind s.received_fragments p.message_id).getD
      []).map Prod.fst).Nodup)
    (hge : p.total_fragments ≤ p.fragment_id) :
    dictFind (handle_packet s p).received_fragments p.message_id =
      some (dictInsert
        ((dictFind s.received_fragments p.message_id).getD [])
        p.fragment_id p) ∧
    dictFind (dictInsert
        ((dictFind s.received_fragments p.message_id).getD [])
        p.fragment_id p) p.fragment_id = some p ∧
    (handle_packet s p).receive_queue = s.receive_queue ∧
    (handle_packet s p).packet_loss = s.packet_loss := by
  have hsig := record_signal_core s p
  rw [handle_packet_store s p hcrc hpend]
  set m := (dictFind s.received_fragments p.message_id).getD []
    with hmdef
  set m2 := dictInsert m p.fragment_id p with hm2def
  have hnodup2 : (m2.map Prod.fst).Nodup :=
    dictInsert_keys_nodup m p.fragment_id p hnodup
  have hfid_in : (dictFind m2 p.fragment_id).isSome := by
    rw [hm2def, dictFind_insert_self]
    rfl
  have hself : dictFind m2 p.fragment_id = some p := by
    rw [hm2def]
    exact dictFind_insert_self _ _ _
  by_cases hc : m2.length = p.total_fragments
  · rw [if_pos hc]
    have hfind : dictFind
        (dictInsert s.received_fragments p.message_id m2)
        p.message_id = some m2 := dictFind_insert_self _ _ _
    have hmiss : ∃ i, i < m2.length ∧ dictFind m2 i = none := by
      by_contra hcon
      push_neg at hcon
      have hkeys : ∀ i, i < m2.length → i ∈ m2.map Prod.fst := by
        intro i hi
        rw [← dictFind_isSome_iff]
        exact Option.ne_none_iff_isSome.mp (hcon i hi)
      have hfidmem : p.fragment_id ∈ m2.map Prod.fst := by
        rw [← dictFind_isSome_iff]
        exact hfid_in
      have hfidnotrange : p.fragment_id ∉ Finset.range m2.length := by
        rw [Finset.mem_range, hc]
        omega
      have hsub : insert p.fragment_id (Finset.range m2.length) ⊆
          (m2.map Prod.fst).toFinset := by
        intro x hx
        rcases Finset.mem_insert.mp hx with hx | hx
        · subst hx
          exact List.mem_toFinset.mpr hfidmem
        · exact List.mem_toFinset.mpr
            (hkeys x (Finset.mem_range.mp hx))
      have hcard := Finset.card_le_card hsub
      rw [Finset.card_insert_of_not_mem hfidnotrange,
        Finset.card_range] at hcard
      have htf := List.toFinset_card_le (m2.map Prod.fst)
      rw [List.length_map] at htf
      omega
    obtain ⟨i, hi, hnone⟩ := hmiss
    rw [reassemble_stuck _ _ m2 hfind
      (indexPackets_none m2 m2.length i hi hnone)]
    refine ⟨hfind, hself, ?_, ?_⟩
    · show (record_signal s p).receive_queue = s.receive_queue
      exact hsig.2.2.1
    · show (record_signal s p).packet_loss = s.packet_loss
      exact hsig.2.2.2
  · rw [if_neg hc]
    refine ⟨dictFind_insert_self _ _ _, hself, ?_, ?_⟩
    · show (record_signal s p).receive_queue = s.receive_queue
      exact hsig.2.2.1
    · show (record_signal s p).packet_loss = s.packet_loss
      exact hsig.2.2.2

/-- Witness for `frag_stored_not_dropped` at the concrete oversized-index
frame on a fresh receiver. -/
theorem frag_stored_not_dropped_witness :
    oddFrag.total_fragments ≤ oddFrag.fragment_id ∧
    dictFind (handle_packet freshRx oddFrag).received_fragments
      oddFrag.message_id =
      some (dictInsert
        ((dictFind freshRx.received_fragments oddFrag.message_id).getD [])
        oddFrag.fragment_id oddFrag) ∧
    (handle_packet freshRx oddFrag).receive_queue =
      freshRx.receive_queue ∧
    (handle_packet freshRx oddFrag).packet_loss = freshRx.packet_loss := by
  have h := frag_stored_not_dropped freshRx oddFrag rfl rfl
    (by simp [freshRx, dictFind]) (by decide)
  exact ⟨by decide, h.1, h.2.2.1, h.2.2.2⟩

end FlyingLora
